import Mathlib

/-!
# Reservation monitor (`src/modules/reserve-monitor.c`)

A shallow embedding of the reference-counted reservation monitor and of the
part of the D-Bus client library it drives.

Conventions of the embedding:

* a C string is a Lean `String` (no embedded NUL); a `char *` that may be
  `NULL` is an `Option String`;
* a pointer to a monitor is an address `Ptr`; a pointer argument that may be
  `NULL` is an `Option Ptr`;
* the process state is a `World`: the heap cells holding monitors, the bus
  connection, the answers of the environment (allocator and bus), and a log
  of the externally visible calls;
* an operation that would abort (`assert`) or touch freed memory yields
  `none`;
* a consumer callback is a finite script of calls of the public API on the
  monitor it is handed.
-/

namespace ReserveMonitor

/-! ## Constants -/

/-- Value of `EIO` in `<errno.h>`. -/
def EIO : Int := 5

/-- Value of `ENOMEM` in `<errno.h>`. -/
def ENOMEM : Int := 12

/-- Value of `EINVAL` in `<errno.h>`. -/
def EINVAL : Int := 22

/-- Value of `INT_MAX` in `<limits.h>` for the 32-bit `int` of the platform. -/
def INT_MAX : Int := 2147483647

/-- The value a 32-bit C `int` holds when the arithmetic result `x` is stored
in it: `x` itself inside the range, wrapped around outside of it. -/
def int_wrap (x : Int) : Int := (x + 2147483648) % 4294967296 - 2147483648

/-- The `SERVICE_PREFIX` string literal. -/
def SERVICE_PREFIX : String := "org.freedesktop.ReserveDevice1."

/-- The `DBUS_SERVICE_DBUS` string of the bus library. -/
def DBUS_SERVICE_DBUS : String := "org.freedesktop.DBus"

/-- The `DBUS_INTERFACE_DBUS` string of the bus library. -/
def DBUS_INTERFACE_DBUS : String := "org.freedesktop.DBus"

/-- The `DBUS_ERROR_INVALID_ARGS` string of the bus library. -/
def DBUS_ERROR_INVALID_ARGS : String := "org.freedesktop.DBus.Error.InvalidArgs"

/-- The match rule literal passed to `dbus_bus_add_match` and
`dbus_bus_remove_match` (the quote character is written `\x27`). -/
def NAME_OWNER_CHANGED_RULE : String :=
  "type=\x27signal\x27," ++
  "sender=\x27" ++ DBUS_SERVICE_DBUS ++ "\x27," ++
  "interface=\x27" ++ DBUS_INTERFACE_DBUS ++ "\x27," ++
  "member=\x27NameOwnerChanged\x27"

/-! ## Data model -/

/-- Address of a monitor object. -/
abbrev Ptr := Nat

/-- One call a consumer callback makes on the monitor it receives. -/
inductive CbOp where
  | release
  | busy
  | set_userdata (v : Nat)
  | get_userdata
  deriving DecidableEq, Repr

/-- The callback type: the calls the consumer makes, in order. -/
abbrev rm_change_cb_t := List CbOp

/-- The `struct rm_monitor`. `ref` is the C `int`, kept as an integer here;
the one increment the module makes on it (`cb_entry`) wraps around like the
machine integer. The three one-bit fields are `Bool`; `userdata` is an opaque
pointer value, `0` being `NULL`; `connection` is `NULL` or the connection of
the world. -/
structure rm_monitor where
  ref : Int
  device_name : Option String
  service_name : Option String
  connection : Option Unit
  busy : Bool
  filtering : Bool
  matching : Bool
  change_cb : Option rm_change_cb_t
  userdata : Nat
  deriving DecidableEq, Repr

/-- The object `calloc` returns: every field zero. -/
def rm_monitor.zeroed : rm_monitor :=
  { ref := 0, device_name := none, service_name := none, connection := none,
    busy := false, filtering := false, matching := false,
    change_cb := none, userdata := 0 }

/-- A heap cell: never allocated, holding a live monitor, or freed (the last
contents are kept for inspection, any access by the program aborts). -/
inductive Cell where
  | unallocated
  | live (m : rm_monitor)
  | freed (m : rm_monitor)
  deriving DecidableEq, Repr

/-- The contents last written to a cell. -/
def Cell.obj : Cell → Option rm_monitor
  | .unallocated => none
  | .live m => some m
  | .freed m => some m

/-- Whether a cell has been freed. -/
def Cell.isFreed : Cell → Bool
  | .freed _ => true
  | _ => false

/-- Argument of a bus message: a string, or a value of another type. -/
inductive DBusArg where
  | str (s : String)
  | other (type_code : Nat)
  deriving DecidableEq, Repr

/-- The four message types of the bus. -/
inductive DBusMessageType where
  | method_call
  | method_return
  | error
  | signal
  deriving DecidableEq, Repr

/-- A bus message, as far as the monitor looks at it. -/
structure DBusMessage where
  msg_type : DBusMessageType
  interface : Option String
  member : Option String
  error_name : Option String
  sender : Option String
  destination : Option String
  args : List DBusArg
  deriving DecidableEq, Repr

/-- The `DBusHandlerResult` enumeration. -/
inductive DBusHandlerResult where
  | HANDLED
  | NOT_YET_HANDLED
  | NEED_MEMORY
  deriving DecidableEq, Repr

/-- A `DBusError` object: whether an error is set. -/
structure DBusError where
  is_set : Bool
  deriving DecidableEq, Repr

/-- The client side of the bus connection: its reference count, the installed
message filters (the `userdata` of each, most recent first), the match rules
registered with the bus (most recent first) and the messages sent. -/
structure DBusConnection where
  refcount : Nat
  filters : List Ptr
  match_rules : List String
  sent : List DBusMessage
  deriving DecidableEq, Repr

/-- Answers of the environment: whether each allocation and each bus request
succeeds, and which names currently have an owner on the bus. -/
structure Env where
  calloc_ok : Bool
  strdup_ok : Bool
  malloc_ok : Bool
  add_filter_ok : Bool
  add_match_ok : Bool
  has_owner_ok : Bool
  owner : String → Bool
  remove_match_ok : Bool
  new_error_ok : Bool
  send_ok : Bool

/-- Externally visible calls, logged in order. -/
inductive Event where
  | conn_ref
  | conn_unref
  | add_filter (m : Ptr) (ok : Bool)
  | remove_filter (m : Ptr)
  | add_match (ok : Bool)
  | remove_match (ok : Bool)
  | has_owner (name : String) (ok : Bool)
  | free (m : Ptr)
  | cb_enter (m : Ptr)
  | cb_return (m : Ptr)
  | cb_busy (r : Int)
  | cb_userdata (v : Nat)
  | send_reply
  deriving DecidableEq, Repr

/-- The process state. `brk` is the address the next `calloc` returns. -/
structure World where
  heap : Ptr → Cell
  brk : Ptr
  conn : DBusConnection
  env : Env
  trace : List Event

/-- Write a live monitor at an address. -/
def World.store (w : World) (a : Ptr) (m : rm_monitor) : World :=
  { w with heap := fun p => if p = a then Cell.live m else w.heap p }

/-- Mark the cell at an address freed, keeping its last contents. -/
def World.free (w : World) (a : Ptr) (m : rm_monitor) : World :=
  { w with heap := fun p => if p = a then Cell.freed m else w.heap p,
           trace := w.trace ++ [Event.free a] }

/-- Append an event to the log. -/
def World.log (w : World) (e : Event) : World :=
  { w with trace := w.trace ++ [e] }

/-! ## The bus library, as the monitor uses it -/

/-- Model of `dbus_message_is_signal`: the message is a signal with the given
interface and member. -/
def dbus_message_is_signal (s : DBusMessage) (iface name : String) : Bool :=
  s.msg_type = DBusMessageType.signal ∧ s.interface = some iface ∧ s.member = some name

/-- Model of `dbus_message_get_args` with three `DBUS_TYPE_STRING` slots: the
first three arguments must be strings; `none` is the failure (error set). -/
def dbus_message_get_args (s : DBusMessage) : Option (String × String × String) :=
  match s.args with
  | DBusArg.str name :: DBusArg.str old :: DBusArg.str new :: _ => some (name, old, new)
  | _ => none

/-- Model of `dbus_message_new_error`: an error message addressed to the
sender of `s`. -/
def dbus_message_new_error (s : DBusMessage) (name text : String) : DBusMessage :=
  { msg_type := DBusMessageType.error, interface := none, member := none,
    error_name := some name, sender := none, destination := s.sender,
    args := [DBusArg.str text] }

/-- Model of `dbus_connection_ref`. A `NULL` connection is left alone. -/
def dbus_connection_ref (w : World) (c : Option Unit) : World :=
  match c with
  | none => w
  | some _ =>
    { w with conn := { w.conn with refcount := w.conn.refcount + 1 },
             trace := w.trace ++ [Event.conn_ref] }

/-- Model of `dbus_connection_unref`. -/
def dbus_connection_unref (w : World) (c : Option Unit) : World :=
  match c with
  | none => w
  | some _ =>
    { w with conn := { w.conn with refcount := w.conn.refcount - 1 },
             trace := w.trace ++ [Event.conn_unref] }

/-- Model of `dbus_connection_add_filter` for `filter_handler` with the given
`userdata`: `false` when the library runs out of memory. -/
def dbus_connection_add_filter (w : World) (c : Option Unit) (userdata : Ptr) : Bool × World :=
  match c with
  | none => (false, w)
  | some _ =>
    if w.env.add_filter_ok then
      (true, { w with conn := { w.conn with filters := userdata :: w.conn.filters },
                      trace := w.trace ++ [Event.add_filter userdata true] })
    else
      (false, w.log (Event.add_filter userdata false))

/-- Model of `dbus_connection_remove_filter`: the most recently added filter
with this `userdata` goes. -/
def dbus_connection_remove_filter (w : World) (c : Option Unit) (userdata : Ptr) : World :=
  match c with
  | none => w
  | some _ =>
    { w with conn := { w.conn with filters := w.conn.filters.erase userdata },
             trace := w.trace ++ [Event.remove_filter userdata] }

/-- Model of `dbus_bus_add_match`; the `Bool` is `dbus_error_is_set` after the
call. -/
def dbus_bus_add_match (w : World) (c : Option Unit) (rule : String) : Bool × World :=
  match c with
  | none => (true, w)
  | some _ =>
    if w.env.add_match_ok then
      (false, { w with conn := { w.conn with match_rules := rule :: w.conn.match_rules },
                       trace := w.trace ++ [Event.add_match true] })
    else
      (true, w.log (Event.add_match false))

/-- Model of `dbus_bus_remove_match` called with a `NULL` error: the request is
issued, its outcome is not reported; the rule goes when the bus honours it. -/
def dbus_bus_remove_match (w : World) (c : Option Unit) (rule : String) : World :=
  match c with
  | none => w
  | some _ =>
    if w.env.remove_match_ok then
      { w with conn := { w.conn with match_rules := w.conn.match_rules.erase rule },
               trace := w.trace ++ [Event.remove_match true] }
    else
      w.log (Event.remove_match false)

/-- Model of `dbus_bus_name_has_owner`: the answer (`FALSE` on error) and
whether the error is set after the call. -/
def dbus_bus_name_has_owner (w : World) (c : Option Unit) (name : String) :
    Bool × Bool × World :=
  match c with
  | none => (false, true, w)
  | some _ =>
    if w.env.has_owner_ok then
      (w.env.owner name, false, w.log (Event.has_owner name true))
    else
      (false, true, w.log (Event.has_owner name false))

/-- Model of `dbus_connection_send`: `false` when out of memory. -/
def dbus_connection_send (w : World) (reply : DBusMessage) : Bool × World :=
  if w.env.send_ok then
    (true, { w with conn := { w.conn with sent := w.conn.sent ++ [reply] },
                    trace := w.trace ++ [Event.send_reply] })
  else
    (false, w)

/-! ## The monitor -/

/-- The C function `rm_release`. -/
def rm_release (w : World) (m : Option Ptr) : Option World :=
  match m with
  | none => some w
  | some a =>
    match w.heap a with
    | Cell.live mon =>
      if mon.ref > 0 then
        let mon1 := { mon with ref := mon.ref - 1 }
        if mon1.ref > 0 then
          some (w.store a mon1)
        else
          let w1 := if mon1.matching then
              dbus_bus_remove_match w mon1.connection NAME_OWNER_CHANGED_RULE
            else w
          let w2 := if mon1.filtering then
              dbus_connection_remove_filter w1 mon1.connection a
            else w1
          let w3 := if mon1.connection.isSome then
              dbus_connection_unref w2 mon1.connection
            else w2
          some (w3.free a mon1)
      else none
    | _ => none

/-- The C function `rm_busy`. -/
def rm_busy (w : World) (m : Option Ptr) : Option (Int × World) :=
  match m with
  | none => some (-EINVAL, w)
  | some a =>
    match w.heap a with
    | Cell.live mon =>
      if mon.ref > 0 then some (if mon.busy then 1 else 0, w) else none
    | _ => none

/-- The C function `rm_set_userdata`. -/
def rm_set_userdata (w : World) (m : Option Ptr) (userdata : Nat) : Option World :=
  match m with
  | none => some w
  | some a =>
    match w.heap a with
    | Cell.live mon =>
      if mon.ref > 0 then some (w.store a { mon with userdata := userdata }) else none
    | _ => none

/-- The C function `rm_get_userdata`. -/
def rm_get_userdata (w : World) (m : Option Ptr) : Option (Nat × World) :=
  match m with
  | none => some (0, w)
  | some a =>
    match w.heap a with
    | Cell.live mon =>
      if mon.ref > 0 then some (mon.userdata, w) else none
    | _ => none

/-- One call of a consumer callback on the monitor at `a`. What the consumer
reads is logged. -/
def run_op (w : World) (a : Ptr) : CbOp → Option World
  | CbOp.release => rm_release w (some a)
  | CbOp.busy =>
    match rm_busy w (some a) with
    | some (r, w1) => some (w1.log (Event.cb_busy r))
    | none => none
  | CbOp.set_userdata v => rm_set_userdata w (some a) v
  | CbOp.get_userdata =>
    match rm_get_userdata w (some a) with
    | some (v, w1) => some (w1.log (Event.cb_userdata v))
    | none => none

/-- The body of a consumer callback invoked on the monitor at `a`. -/
def run_cb (w : World) (a : Ptr) : rm_change_cb_t → Option World
  | [] => some w
  | op :: rest =>
    match run_op w a op with
    | some w1 => run_cb w1 a rest
    | none => none

/-- The C expression `!!(p && *p)` on a string pointer. -/
def cstr_nonempty (p : Option String) : Bool :=
  match p with
  | none => false
  | some s => s ≠ ""

/-- State of `filter_handler` at the moment the callback body starts: `busy`
stored, the temporary reference taken by `m->ref++` on the C `int` (at
`INT_MAX` the count wraps around to a negative value, on which every
`assert(m->ref > 0)` that follows aborts), the invocation logged. -/
def cb_entry (w : World) (a : Ptr) (mon : rm_monitor) (new : String) : World :=
  (w.store a { mon with busy := cstr_nonempty (some new),
                        ref := int_wrap (mon.ref + 1) }).log
    (Event.cb_enter a)

/-- The `invalid:` and `oom:` exits of `filter_handler`. -/
def filter_handler_invalid (w : World) (s : DBusMessage) : DBusHandlerResult × World :=
  if w.env.new_error_ok then
    let reply := dbus_message_new_error s DBUS_ERROR_INVALID_ARGS "Invalid arguments"
    match dbus_connection_send w reply with
    | (true, w1) => (DBusHandlerResult.HANDLED, w1)
    | (false, w1) => (DBusHandlerResult.NEED_MEMORY, w1)
  else
    (DBusHandlerResult.NEED_MEMORY, w)

/-- The C function `filter_handler`, with `userdata` the monitor at `a` and
`c` the connection of the world. -/
def filter_handler (w : World) (s : DBusMessage) (a : Ptr) :
    Option (DBusHandlerResult × World) :=
  match w.heap a with
  | Cell.live m =>
    if m.ref ≥ 1 then
      if dbus_message_is_signal s "org.freedesktop.DBus" "NameOwnerChanged" then
        match dbus_message_get_args s with
        | none => some (filter_handler_invalid w s)
        | some (name, _, new) =>
          match m.service_name with
          | none => none
          | some service_name =>
            if name = service_name then
              match m.change_cb with
              | some cb =>
                match run_cb (cb_entry w a m new) a cb with
                | some w1 =>
                  match rm_release (w1.log (Event.cb_return a)) (some a) with
                  | some w2 => some (DBusHandlerResult.NOT_YET_HANDLED, w2)
                  | none => none
                | none => none
              | none =>
                some (DBusHandlerResult.NOT_YET_HANDLED,
                  w.store a { m with busy := cstr_nonempty (some new) })
            else
              some (DBusHandlerResult.NOT_YET_HANDLED, w)
      else
        some (DBusHandlerResult.NOT_YET_HANDLED, w)
    else none
  | _ => none

/-- What `rm_watch` hands back: the return value, the handle written through
`_m` (`none` when `*_m` is not written), the caller's error object after the
call (`none` when the caller passed `NULL`), and the state. -/
structure WatchOut where
  ret : Int
  handle : Option Ptr
  error : Option DBusError
  world : World

/-- The `fail:` exit of `rm_watch`: the local error object is freed when it
was the one in use, the monitor is released, `r` is returned. -/
def rm_watch_fail (w : World) (a : Ptr) (r : Int) (error : Bool) (e : DBusError) :
    Option WatchOut :=
  match rm_release w (some a) with
  | some w1 => some { ret := r, handle := none,
                      error := if error then some e else none, world := w1 }
  | none => none

/-- The C function `rm_watch`. `_m` and `error` say whether the two pointers
are non-null. -/
def rm_watch (w : World) ( _m : Bool) (connection : Option Unit)
    (device_name : Option String) (change_cb : Option rm_change_cb_t) (error : Bool) :
    Option WatchOut :=
  let e0 : DBusError := { is_set := false }
  let caller := fun (e : DBusError) => if error then some e else none
  if !_m then
    some { ret := -EINVAL, handle := none, error := caller e0, world := w }
  else
    match connection with
    | none => some { ret := -EINVAL, handle := none, error := caller e0, world := w }
    | some _ =>
      match device_name with
      | none => some { ret := -EINVAL, handle := none, error := caller e0, world := w }
      | some dn =>
        if !w.env.calloc_ok then
          some { ret := -ENOMEM, handle := none, error := caller e0, world := w }
        else
          let a := w.brk
          let m0 := { rm_monitor.zeroed with ref := 1 }
          let w0 := { w with brk := w.brk + 1 }.store a m0
          if !w0.env.strdup_ok then
            rm_watch_fail w0 a (-ENOMEM) error e0
          else
            let m1 := { m0 with device_name := some dn }
            let w1 := dbus_connection_ref w0 connection
            let m2 := { m1 with connection := connection, change_cb := change_cb }
            let w2 := w1.store a m2
            if !w2.env.malloc_ok then
              rm_watch_fail w2 a (-ENOMEM) error e0
            else
              let m3 := { m2 with service_name := some (SERVICE_PREFIX ++ dn) }
              let w3 := w2.store a m3
              match dbus_connection_add_filter w3 m3.connection a with
              | (false, w4) => rm_watch_fail w4 a (-ENOMEM) error e0
              | (true, w4) =>
                let m4 := { m3 with filtering := true }
                let w5 := w4.store a m4
                match dbus_bus_add_match w5 m4.connection NAME_OWNER_CHANGED_RULE with
                | (true, w6) => rm_watch_fail w6 a (- EIO) error { is_set := true }
                | (false, w6) =>
                  let m5 := { m4 with matching := true }
                  let w7 := w6.store a m5
                  match m5.service_name with
                  | none => none
                  | some sn =>
                    match dbus_bus_name_has_owner w7 m5.connection sn with
                    | (b, true, w8) =>
                      rm_watch_fail (w8.store a { m5 with busy := b }) a (- EIO) error
                        { is_set := true }
                    | (b, false, w8) =>
                      some { ret := 0, handle := some a, error := caller e0,
                             world := w8.store a { m5 with busy := b } }

/-! ## Vocabulary of the statements -/

/-- Number of `rm_release` calls a callback makes. -/
def releases (cb : rm_change_cb_t) : Nat := cb.count CbOp.release

/-- The environment in which nothing fails and no name has an owner. -/
def demo_env : Env :=
  { calloc_ok := true, strdup_ok := true, malloc_ok := true, add_filter_ok := true,
    add_match_ok := true, has_owner_ok := true, owner := fun _ => false,
    remove_match_ok := true, new_error_ok := true, send_ok := true }

/-- A fully constructed monitor for the device `card0`, with the given
reference count and callback. -/
def demo_monitor (n : Int) (cb : Option rm_change_cb_t) : rm_monitor :=
  { ref := n, device_name := some "card0",
    service_name := some "org.freedesktop.ReserveDevice1.card0",
    connection := some (), busy := false, filtering := true, matching := true,
    change_cb := cb, userdata := 0 }

/-- A state with one live monitor at address `0`, its filter and match rule
installed on the connection. -/
def demo_world (n : Int) (cb : Option rm_change_cb_t) : World :=
  { heap := fun p => if p = 0 then Cell.live (demo_monitor n cb) else Cell.unallocated,
    brk := 1,
    conn := { refcount := 2, filters := [0], match_rules := [NAME_OWNER_CHANGED_RULE],
              sent := [] },
    env := demo_env,
    trace := [] }

/-- A `NameOwnerChanged` signal of the bus with the three given strings. -/
def name_owner_changed (name old new : String) : DBusMessage :=
  { msg_type := DBusMessageType.signal, interface := some "org.freedesktop.DBus",
    member := some "NameOwnerChanged", error_name := none,
    sender := some "org.freedesktop.DBus", destination := none,
    args := [DBusArg.str name, DBusArg.str old, DBusArg.str new] }

/-- The calls teardown makes for a monitor with the given flags, in order. -/
def teardown_events (env : Env) (m : rm_monitor) (a : Ptr) : List Event :=
  (if m.matching ∧ m.connection.isSome then [Event.remove_match env.remove_match_ok] else []) ++
  (if m.filtering ∧ m.connection.isSome then [Event.remove_filter a] else []) ++
  (if m.connection.isSome then [Event.conn_unref] else []) ++
  [Event.free a]

/-- The connection teardown leaves behind. -/
def teardown_conn (env : Env) (m : rm_monitor) (a : Ptr) (c : DBusConnection) :
    DBusConnection :=
  match m.connection with
  | none => c
  | some _ =>
    { refcount := c.refcount - 1,
      filters := if m.filtering then c.filters.erase a else c.filters,
      match_rules := if m.matching ∧ env.remove_match_ok then
          c.match_rules.erase NAME_OWNER_CHANGED_RULE
        else c.match_rules,
      sent := c.sent }

/-- The state teardown of the monitor `m` at `a` leaves behind. -/
def teardown_world (w : World) (a : Ptr) (m : rm_monitor) : World :=
  { heap := fun p => if p = a then Cell.freed { m with ref := 0 } else w.heap p,
    brk := w.brk,
    conn := teardown_conn w.env m a w.conn,
    env := w.env,
    trace := w.trace ++ teardown_events w.env m a }

/-- The monitor `rm_watch` builds for the device `d` when every step succeeds. -/
def watched_monitor (env : Env) (d : String) (cb : Option rm_change_cb_t) : rm_monitor :=
  { ref := 1, device_name := some d, service_name := some (SERVICE_PREFIX ++ d),
    connection := some (), busy := env.owner (SERVICE_PREFIX ++ d),
    filtering := true, matching := true, change_cb := cb, userdata := 0 }

/-- The state `rm_watch` leaves when every step succeeds. -/
def watched_world (w : World) (d : String) (cb : Option rm_change_cb_t) : World :=
  { heap := fun p => if p = w.brk then Cell.live (watched_monitor w.env d cb) else w.heap p,
    brk := w.brk + 1,
    conn := { refcount := w.conn.refcount + 1, filters := w.brk :: w.conn.filters,
              match_rules := NAME_OWNER_CHANGED_RULE :: w.conn.match_rules,
              sent := w.conn.sent },
    env := w.env,
    trace := w.trace ++ [Event.conn_ref, Event.add_filter w.brk true, Event.add_match true,
      Event.has_owner (SERVICE_PREFIX ++ d) true] }

/-- The environment in which only the ownership query fails. -/
def query_fails_env : Env := { demo_env with has_owner_ok := false }

/-- A `NameOwnerChanged` signal whose arguments are not three strings. -/
def malformed_signal : DBusMessage :=
  { name_owner_changed "" "" "" with
    args := [DBusArg.str "org.freedesktop.ReserveDevice1.card0", DBusArg.other 117] }

/-- Result of calling `rm_busy` the given number of times in a row: the values
returned, in order, and the final state. -/
def rm_busy_repeat (w : World) (m : Option Ptr) : Nat → Option (List Int × World)
  | 0 => some ([], w)
  | n + 1 =>
    match rm_busy w m with
    | some (r, w1) =>
      match rm_busy_repeat w1 m n with
      | some (rs, w2) => some (r :: rs, w2)
      | none => none
    | none => none

/-! ## Sequences of operations -/

/-- The dispatch loop delivering messages, in order, to the filter of the
monitor at `a`. -/
def deliver (w : World) (a : Ptr) : List DBusMessage → Option World
  | [] => some w
  | s :: rest =>
    match filter_handler w s a with
    | some (_, w1) => deliver w1 a rest
    | none => none

/-- Whether the changed name of a notification is `service_name`. -/
def names_service (service_name : String) (s : DBusMessage) : Bool :=
  match dbus_message_get_args s with
  | some (name, _, _) => name = service_name
  | none => false

/-- Whether the new owner of a notification is non-empty. -/
def new_owner_nonempty (s : DBusMessage) : Bool :=
  match dbus_message_get_args s with
  | some (_, _, new) => cstr_nonempty (some new)
  | none => false

/-- Non-emptiness of the new owner in the last notification of the sequence
that names `service_name`; `init` when none does. -/
def last_busy (service_name : String) (init : Bool) (msgs : List DBusMessage) : Bool :=
  match (msgs.filter (names_service service_name)).getLast? with
  | some s => new_owner_nonempty s
  | none => init

/-- An operation of the module applied to the monitor at an address. -/
inductive Op where
  | filter_handler (s : DBusMessage)
  | rm_release
  | rm_busy
  | rm_set_userdata (v : Nat)
  | rm_get_userdata
  deriving DecidableEq, Repr

/-- Effect of one operation on the state. -/
def apply_op (w : World) (a : Ptr) : Op → Option World
  | Op.filter_handler s => (filter_handler w s a).map Prod.snd
  | Op.rm_release => rm_release w (some a)
  | Op.rm_busy => (rm_busy w (some a)).map Prod.snd
  | Op.rm_set_userdata v => rm_set_userdata w (some a) v
  | Op.rm_get_userdata => (rm_get_userdata w (some a)).map Prod.snd

/-- Effect of a sequence of operations, in order. -/
def apply_ops (w : World) (a : Ptr) : List Op → Option World
  | [] => some w
  | op :: rest =>
    match apply_op w a op with
    | some w1 => apply_ops w1 a rest
    | none => none

/-- The fields of the monitor in a cell that are written during construction
only: the two names, the connection pointer, the two flags, the callback. -/
def Cell.fixed (c : Cell) :
    Option (Option String × Option String × Option Unit × Bool × Bool × Option rm_change_cb_t) :=
  c.obj.map (fun m =>
    (m.device_name, m.service_name, m.connection, m.filtering, m.matching, m.change_cb))

/-! ## The service-name buffer -/

/-- The C function `strlen`: the number of bytes before the terminating NUL. -/
def strlen (s : String) : Nat := s.utf8ByteSize

/-- The C expression `sizeof(SERVICE_PREFIX)`: the bytes of the literal and its
terminating NUL. -/
def sizeof_SERVICE_PREFIX : Nat := strlen SERVICE_PREFIX + 1

/-- The size `rm_watch` passes to `malloc` for `service_name`. -/
def service_name_buffer_size (device_name : String) : Nat :=
  sizeof_SERVICE_PREFIX + strlen device_name

/-- The string `sprintf` formats with `SERVICE_PREFIX "%s"`. -/
def sprintf_service_name (device_name : String) : String :=
  SERVICE_PREFIX ++ device_name

/-- The number of bytes `sprintf` writes: the formatted string and a
terminating NUL. -/
def sprintf_bytes_written (device_name : String) : Nat :=
  strlen (sprintf_service_name device_name) + 1

/-- A bus message that is a method call, not a signal. -/
def method_call_message : DBusMessage :=
  { msg_type := DBusMessageType.method_call, interface := some "org.freedesktop.DBus",
    member := some "NameOwnerChanged", error_name := none, sender := some ":1.7",
    destination := none, args := [] }

/-- The log of one invocation of the callback for the notification `s`: the
entry, what the callback read (every reading of `busy` giving the value of the
new owner of `s`), the return. -/
def is_invocation (a : Ptr) (s : DBusMessage) (blk : List Event) : Prop :=
  ∃ evs, blk = Event.cb_enter a :: evs ++ [Event.cb_return a] ∧
    ∀ e ∈ evs, e = Event.cb_busy (if new_owner_nonempty s then 1 else 0) ∨
      ∃ v, e = Event.cb_userdata v

/-- The scenario of the specification: the name of `card0` gains the owner
`:1.42`, loses it, and another device gains an owner. -/
def demo_notifications : List DBusMessage :=
  [name_owner_changed "org.freedesktop.ReserveDevice1.card0" "" ":1.42",
   name_owner_changed "org.freedesktop.ReserveDevice1.card0" ":1.42" "",
   name_owner_changed "org.freedesktop.ReserveDevice1.other" "" ":1.99"]

/-- The environment in which the ownership query fails and the bus does not
honour the removal of a match rule. -/
def removal_fails_env : Env :=
  { demo_env with has_owner_ok := false, remove_match_ok := false }

/-! ## Auxiliary facts -/

/-- Inside the range of the C `int` nothing wraps. -/
theorem int_wrap_of_range (x : Int) (h1 : -2147483648 ≤ x) (h2 : x ≤ 2147483647) :
    int_wrap x = x := by
  unfold int_wrap
  omega

/-- Below `INT_MAX` the temporary reference is an ordinary increment. -/
theorem cb_entry_eq (w : World) (a : Ptr) (m : rm_monitor) (new : String)
    (href : m.ref ≥ 1) (hmax : m.ref < INT_MAX) :
    cb_entry w a m new =
      (w.store a { m with busy := cstr_nonempty (some new), ref := m.ref + 1 }).log
        (Event.cb_enter a) := by
  have h : int_wrap (m.ref + 1) = m.ref + 1 := by
    apply int_wrap_of_range
    · omega
    · unfold INT_MAX at hmax
      omega
  simp only [cb_entry, h]

theorem store_heap_same (w : World) (a : Ptr) (m : rm_monitor) :
    (w.store a m).heap a = Cell.live m := by
  simp [World.store]

theorem store_store (w : World) (a : Ptr) (m m2 : rm_monitor) :
    (w.store a m).store a m2 = w.store a m2 := by
  simp only [World.store]
  congr 1
  funext p
  by_cases h : p = a <;> simp [h]

/-- What a callback that makes fewer `rm_release` calls than there are
references does: it ends, the monitor stays live, the count drops by the number
of calls, only `userdata` may change besides, the connection is untouched and
the log grows by what the callback read. -/
theorem run_cb_alive (a : Ptr) (cb : rm_change_cb_t) :
    ∀ (w : World) (m : rm_monitor), w.heap a = Cell.live m →
      (releases cb : Int) < m.ref →
      ∃ w1 u evs, run_cb w a cb = some w1 ∧
        w1 = { (w.store a { m with ref := m.ref - releases cb, userdata := u }) with
                trace := w.trace ++ evs } ∧
        (∀ e ∈ evs, e = Event.cb_busy (if m.busy then 1 else 0) ∨ ∃ v, e = Event.cb_userdata v) ∧
        evs.count (Event.cb_busy (if m.busy then 1 else 0)) = cb.count CbOp.busy := by
  induction cb with
  | nil =>
    intro w m hm _
    refine ⟨w, m.userdata, [], rfl, ?_, by simp, by simp⟩
    cases w
    simp only [World.store, releases, List.count_nil, Nat.cast_zero, sub_zero, List.append_nil,
      World.mk.injEq, and_true, true_and]
    funext p
    by_cases h : p = a
    · simp only [h, if_true]; exact hm
    · simp [h]
  | cons op rest ih =>
    intro w m hm hlt
    cases op with
    | release =>
      have hr : releases (CbOp.release :: rest) = releases rest + 1 := by
        simp [releases]
      rw [hr] at hlt
      push_cast at hlt
      have hpos : m.ref > 0 := by omega
      have hpos1 : m.ref - 1 > 0 := by omega
      obtain ⟨w1, u, evs, h1, h2, h3, h4⟩ :=
        ih (w.store a { m with ref := m.ref - 1 }) { m with ref := m.ref - 1 }
          (store_heap_same _ _ _) (by simp; omega)
      refine ⟨w1, u, evs, ?_, ?_, h3, ?_⟩
      · simp [run_cb, run_op, rm_release, hm, hpos, hpos1, h1]
      · rw [h2, store_store, hr]
        simp only [World.store]
        push_cast
        have : m.ref - 1 - (releases rest : Int) = m.ref - ((releases rest : Int) + 1) := by ring
        rw [this]
      · simpa using h4
    | busy =>
      have hr : releases (CbOp.busy :: rest) = releases rest := by
        simp [releases]
      rw [hr] at hlt
      have hpos : m.ref > 0 := by omega
      obtain ⟨w1, u, evs, h1, h2, h3, h4⟩ :=
        ih (w.log (Event.cb_busy (if m.busy then 1 else 0))) m (by simpa [World.log] using hm) hlt
      refine ⟨w1, u, Event.cb_busy (if m.busy then 1 else 0) :: evs, ?_, ?_, ?_, ?_⟩
      · simp [run_cb, run_op, rm_busy, hm, hpos, h1]
      · rw [h2, hr]
        simp [World.store, World.log]
      · intro e he
        rcases List.mem_cons.mp he with h | h
        · exact Or.inl h
        · exact h3 e h
      · simp [h4]
    | set_userdata v =>
      have hr : releases (CbOp.set_userdata v :: rest) = releases rest := by
        simp [releases]
      rw [hr] at hlt
      have hpos : m.ref > 0 := by omega
      obtain ⟨w1, u, evs, h1, h2, h3, h4⟩ :=
        ih (w.store a { m with userdata := v }) { m with userdata := v }
          (store_heap_same _ _ _) hlt
      refine ⟨w1, u, evs, ?_, ?_, h3, ?_⟩
      · simp [run_cb, run_op, rm_set_userdata, hm, hpos, h1]
      · rw [h2, store_store, hr]
        simp [World.store]
      · simpa using h4
    | get_userdata =>
      have hr : releases (CbOp.get_userdata :: rest) = releases rest := by
        simp [releases]
      rw [hr] at hlt
      have hpos : m.ref > 0 := by omega
      obtain ⟨w1, u, evs, h1, h2, h3, h4⟩ :=
        ih (w.log (Event.cb_userdata m.userdata)) m (by simpa [World.log] using hm) hlt
      refine ⟨w1, u, Event.cb_userdata m.userdata :: evs, ?_, ?_, ?_, ?_⟩
      · simp [run_cb, run_op, rm_get_userdata, hm, hpos, h1]
      · rw [h2, hr]
        simp [World.store, World.log]
      · intro e he
        rcases List.mem_cons.mp he with h | h
        · exact Or.inr ⟨_, h⟩
        · exact h3 e h
      · simp [h4]

/-- Releasing the last reference: the cell is freed with count zero, the
teardown calls are made in order, nothing else changes. -/
theorem rm_release_last (w : World) (a : Ptr) (m : rm_monitor)
    (hm : w.heap a = Cell.live m) (href : m.ref = 1) :
    rm_release w (some a) = some (teardown_world w a m) := by
  unfold teardown_world
  obtain ⟨heap, brk, conn, env, trace⟩ := w
  obtain ⟨r, dn, sn, c, b, f, mt, cb, u⟩ := m
  simp only at hm href
  subst href
  cases c <;> cases f <;> cases mt <;> cases hok : env.remove_match_ok <;>
    simp [rm_release, hm, teardown_events, teardown_conn, dbus_bus_remove_match,
      dbus_connection_remove_filter, dbus_connection_unref, World.free, World.log, hok]

/-- Releasing a reference that is not the last: only the count changes. -/
theorem rm_release_not_last (w : World) (a : Ptr) (m : rm_monitor)
    (hm : w.heap a = Cell.live m) (href : m.ref > 1) :
    rm_release w (some a) = some (w.store a { m with ref := m.ref - 1 }) := by
  have h1 : m.ref > 0 := by omega
  have h2 : m.ref - 1 > 0 := by omega
  simp [rm_release, hm, h1, h2]

theorem free_not_mem_of_reads (evs : List Event) (a : Ptr) (b : Int)
    (h : ∀ e ∈ evs, e = Event.cb_busy b ∨ ∃ v, e = Event.cb_userdata v) :
    Event.free a ∉ evs := by
  intro hmem
  rcases h _ hmem with h1 | ⟨v, h1⟩ <;> cases h1

theorem cb_enter_not_mem_of_reads (evs : List Event) (a : Ptr) (b : Int)
    (h : ∀ e ∈ evs, e = Event.cb_busy b ∨ ∃ v, e = Event.cb_userdata v) :
    Event.cb_enter a ∉ evs := by
  intro hmem
  rcases h _ hmem with h1 | ⟨v, h1⟩ <;> cases h1

theorem teardown_events_count_free (env : Env) (m : rm_monitor) (a : Ptr) :
    (teardown_events env m a).count (Event.free a) = 1 := by
  unfold teardown_events
  split_ifs <;> simp

theorem teardown_events_count_cb_enter (env : Env) (m : rm_monitor) (a : Ptr) :
    (teardown_events env m a).count (Event.cb_enter a) = 0 := by
  unfold teardown_events
  split_ifs <;> simp

/-- A matching notification delivered to a live monitor whose count `n` is
below `INT_MAX`, with a callback that
makes `k` release calls, `k` at most the reference count `n`: the handler
declines the message; the monitor ends with `busy` from the new owner and count
`n - k`, freed exactly when `k = n`; the log grows by the invocation, what the
callback read, the return, and the teardown calls when `k = n`. -/
theorem filter_handler_dispatch (w : World) (a : Ptr) (m : rm_monitor) (s : DBusMessage)
    (name old new : String) (cb : rm_change_cb_t)
    (hm : w.heap a = Cell.live m) (href : m.ref ≥ 1) (hmax : m.ref < INT_MAX)
    (hsig : dbus_message_is_signal s "org.freedesktop.DBus" "NameOwnerChanged" = true)
    (hargs : dbus_message_get_args s = some (name, old, new))
    (hname : m.service_name = some name)
    (hcb : m.change_cb = some cb) (hk : (releases cb : Int) ≤ m.ref) :
    ∃ w1 u evs,
      filter_handler w s a = some (DBusHandlerResult.NOT_YET_HANDLED, w1) ∧
      w1.heap a =
        (if (releases cb : Int) = m.ref then
          Cell.freed { m with busy := cstr_nonempty (some new), ref := 0, userdata := u }
        else
          Cell.live { m with busy := cstr_nonempty (some new),
                             ref := m.ref - releases cb, userdata := u }) ∧
      w1.trace = w.trace ++ Event.cb_enter a :: evs ++ Event.cb_return a ::
        (if (releases cb : Int) = m.ref then teardown_events w.env m a else []) ∧
      (∀ e ∈ evs, e = Event.cb_busy (if cstr_nonempty (some new) then 1 else 0) ∨
        ∃ v, e = Event.cb_userdata v) ∧
      evs.count (Event.cb_busy (if cstr_nonempty (some new) then 1 else 0)) =
        cb.count CbOp.busy ∧
      w1.conn = (if (releases cb : Int) = m.ref then teardown_conn w.env m a w.conn
        else w.conn) := by
  have hce := cb_entry_eq w a m new href hmax
  obtain ⟨w2, u, evs, h1, h2, h3, h4⟩ :=
    run_cb_alive a cb (cb_entry w a m new)
      { m with busy := cstr_nonempty (some new), ref := m.ref + 1 }
      (by rw [hce]; simp [World.store, World.log]) (by simp; omega)
  simp only at h3 h4
  by_cases hkn : (releases cb : Int) = m.ref
  · have hrel := rm_release_last (w2.log (Event.cb_return a)) a
      { m with busy := cstr_nonempty (some new), ref := 1, userdata := u }
      (by rw [h2]; simp [World.log, World.store, hkn]) rfl
    refine ⟨teardown_world (w2.log (Event.cb_return a)) a
      { m with busy := cstr_nonempty (some new), ref := 1, userdata := u },
      u, evs, ?_, ?_, ?_, h3, h4, ?_⟩
    · simp [filter_handler, hm, href, hsig, hargs, hname, hcb, h1, hrel]
    · simp [hkn, teardown_world]
    · simp [hkn, h2, World.log, World.store, hce, teardown_events, teardown_world]
    · simp [hkn, h2, World.log, World.store, hce, teardown_conn, teardown_world]
  · have hgt : m.ref + 1 - (releases cb : Int) > 1 := by omega
    have hrel := rm_release_not_last (w2.log (Event.cb_return a)) a
      { m with busy := cstr_nonempty (some new), ref := m.ref + 1 - releases cb, userdata := u }
      (by rw [h2]; simp [World.log, World.store]) hgt
    refine ⟨(w2.log (Event.cb_return a)).store a
      { m with busy := cstr_nonempty (some new), ref := m.ref + 1 - releases cb - 1,
               userdata := u },
      u, evs, ?_, ?_, ?_, h3, h4, ?_⟩
    · simp [filter_handler, hm, href, hsig, hargs, hname, hcb, h1, hrel]
    · simp only [hkn, if_false, store_heap_same]
      congr 2
      ring
    · simp [hkn, h2, World.log, World.store, hce]
    · simp [hkn, h2, World.log, World.store, hce]

/-! ## The interceptor -/

/-- C1. A well-formed `NameOwnerChanged` signal naming the monitor's
`service_name`, delivered to a live monitor (whose callback, if any, releases
no more references than the monitor has, and whose count, when a callback is
registered, is below `INT_MAX` so that `m->ref++` does not overflow):
`filter_handler` returns
`DBUS_HANDLER_RESULT_NOT_YET_HANDLED`, leaves `busy` true when the new owner is
non-empty and false when it is empty, and invokes the callback exactly once
when one is registered and not at all when none is. -/
theorem filter_handler_matching_notification (w : World) (a : Ptr) (m : rm_monitor)
    (s : DBusMessage) (name old new : String)
    (hm : w.heap a = Cell.live m) (href : m.ref ≥ 1)
    (hsig : dbus_message_is_signal s "org.freedesktop.DBus" "NameOwnerChanged" = true)
    (hargs : dbus_message_get_args s = some (name, old, new))
    (hname : m.service_name = some name)
    (hcb : ∀ cb, m.change_cb = some cb → (releases cb : Int) ≤ m.ref)
    (hmax : m.change_cb.isSome = true → m.ref < INT_MAX) :
    ∃ w1 m1,
      filter_handler w s a = some (DBusHandlerResult.NOT_YET_HANDLED, w1) ∧
      (w1.heap a).obj = some m1 ∧
      (new ≠ "" → m1.busy = true) ∧ (new = "" → m1.busy = false) ∧
      w1.trace.count (Event.cb_enter a) =
        w.trace.count (Event.cb_enter a) + (if m.change_cb.isSome then 1 else 0) ∧
      w1.trace.count (Event.cb_return a) =
        w.trace.count (Event.cb_return a) + (if m.change_cb.isSome then 1 else 0) := by
  cases hc : m.change_cb with
  | none =>
    refine ⟨w.store a { m with busy := cstr_nonempty (some new) },
      { m with busy := cstr_nonempty (some new) }, ?_, ?_, ?_, ?_, ?_, ?_⟩
    · simp [filter_handler, hm, href, hsig, hargs, hname, hc]
    · simp [World.store, Cell.obj]
    · intro h; simp [cstr_nonempty, h]
    · intro h; simp [cstr_nonempty, h]
    · simp [World.store]
    · simp [World.store]
  | some cb =>
    obtain ⟨w1, u, evs, h1, h2, h3, h4, _, _⟩ :=
      filter_handler_dispatch w a m s name old new cb hm href (hmax (by simp [hc])) hsig hargs
        hname hc (hcb cb hc)
    have hne : Event.cb_enter a ∉ evs := cb_enter_not_mem_of_reads evs a _ h4
    have hnr : Event.cb_return a ∉ evs := by
      intro hmem
      rcases h4 _ hmem with h | ⟨v, h⟩ <;> cases h
    have htr : ∀ (env : Env) (m0 : rm_monitor),
        (teardown_events env m0 a).count (Event.cb_return a) = 0 := by
      intro env m0
      unfold teardown_events
      split_ifs <;> simp
    by_cases hkn : (releases cb : Int) = m.ref
    · rw [if_pos hkn] at h2 h3
      refine ⟨w1, _, h1, by rw [h2]; rfl, ?_, ?_, ?_, ?_⟩
      · intro h; simp [cstr_nonempty, h]
      · intro h; simp [cstr_nonempty, h]
      · rw [h3]
        simp [List.count_cons, List.count_eq_zero_of_not_mem hne,
          teardown_events_count_cb_enter]
      · rw [h3]
        simp [List.count_cons, List.count_eq_zero_of_not_mem hnr, htr]
    · rw [if_neg hkn] at h2 h3
      refine ⟨w1, _, h1, by rw [h2]; rfl, ?_, ?_, ?_, ?_⟩
      · intro h; simp [cstr_nonempty, h]
      · intro h; simp [cstr_nonempty, h]
      · rw [h3]
        simp [List.count_cons, List.count_eq_zero_of_not_mem hne]
      · rw [h3]
        simp [List.count_cons, List.count_eq_zero_of_not_mem hnr]

/-- Witness of C1: the monitor for `card0` with a callback that reads `busy`
and releases once, on a notification giving the name the owner `:1.42`. -/
theorem filter_handler_matching_notification_witness :
    ∃ w1 m1,
      filter_handler (demo_world 1 (some [CbOp.busy, CbOp.release]))
        (name_owner_changed "org.freedesktop.ReserveDevice1.card0" "" ":1.42") 0 =
          some (DBusHandlerResult.NOT_YET_HANDLED, w1) ∧
      (w1.heap 0).obj = some m1 ∧
      ((":1.42" : String) ≠ "" → m1.busy = true) ∧ ((":1.42" : String) = "" → m1.busy = false) ∧
      w1.trace.count (Event.cb_enter 0) =
        (demo_world 1 (some [CbOp.busy, CbOp.release])).trace.count (Event.cb_enter 0) +
          (if (demo_monitor 1 (some [CbOp.busy, CbOp.release])).change_cb.isSome then 1 else 0) ∧
      w1.trace.count (Event.cb_return 0) =
        (demo_world 1 (some [CbOp.busy, CbOp.release])).trace.count (Event.cb_return 0) +
          (if (demo_monitor 1 (some [CbOp.busy, CbOp.release])).change_cb.isSome then 1 else 0) :=
  filter_handler_matching_notification (demo_world 1 (some [CbOp.busy, CbOp.release])) 0
    (demo_monitor 1 (some [CbOp.busy, CbOp.release]))
    (name_owner_changed "org.freedesktop.ReserveDevice1.card0" "" ":1.42")
    "org.freedesktop.ReserveDevice1.card0" "" ":1.42"
    rfl (by decide) (by decide) rfl rfl
    (by intro cb h; cases h; decide) (by intro _; decide)

/-- C2. A well-formed `NameOwnerChanged` signal whose changed name differs from
the monitor's `service_name`: `filter_handler` returns
`DBUS_HANDLER_RESULT_NOT_YET_HANDLED` and the whole state (every monitor
field, the connection, the log of callback invocations) is unchanged. -/
theorem filter_handler_other_name (w : World) (a : Ptr) (m : rm_monitor)
    (s : DBusMessage) (name old new service_name : String)
    (hm : w.heap a = Cell.live m) (href : m.ref ≥ 1)
    (hsig : dbus_message_is_signal s "org.freedesktop.DBus" "NameOwnerChanged" = true)
    (hargs : dbus_message_get_args s = some (name, old, new))
    (hname : m.service_name = some service_name) (hdiff : name ≠ service_name) :
    filter_handler w s a = some (DBusHandlerResult.NOT_YET_HANDLED, w) := by
  simp [filter_handler, hm, href, hsig, hargs, hname, hdiff]

/-- Witness of C2: a notification about `ReserveDevice1.other` delivered to the
monitor of `card0`. -/
theorem filter_handler_other_name_witness :
    filter_handler (demo_world 1 (some [CbOp.release]))
      (name_owner_changed "org.freedesktop.ReserveDevice1.other" "" ":1.99") 0 =
        some (DBusHandlerResult.NOT_YET_HANDLED, demo_world 1 (some [CbOp.release])) :=
  filter_handler_other_name (demo_world 1 (some [CbOp.release])) 0
    (demo_monitor 1 (some [CbOp.release]))
    (name_owner_changed "org.freedesktop.ReserveDevice1.other" "" ":1.99")
    "org.freedesktop.ReserveDevice1.other" "" ":1.99" "org.freedesktop.ReserveDevice1.card0"
    rfl (by decide) (by decide) rfl rfl (by decide)

theorem releases_append (pre post : rm_change_cb_t) :
    releases (pre ++ post) = releases pre + releases post := by
  simp [releases]

/-- C3. A monitor with `ref = n ≥ 1` (and `n < INT_MAX`, so that the
temporary reference does not overflow the C `int`) and a callback that calls
`rm_release` on it `k ≤ n` times, on a matching notification. At every point
of the callback
(after any initial part `pre` of its calls) the monitor is live with
`ref = n + 1 - (releases so far) ≥ 1`. After `filter_handler` returns, `ref` is
`n - k`; the monitor is freed if and only if `k = n`, and then exactly once, by
the release that follows the return of the callback: the log is the
invocation, what the callback read (no `free`), the return, and a tail holding
one `free` when `k = n` and nothing otherwise. -/
theorem filter_handler_release_in_callback (w : World) (a : Ptr) (m : rm_monitor)
    (s : DBusMessage) (name old new : String) (cb : rm_change_cb_t) (n : Int) (k : Nat)
    (hm : w.heap a = Cell.live m) (hn : m.ref = n) (hn1 : 1 ≤ n) (hmax : n < INT_MAX)
    (hcb : m.change_cb = some cb) (hk : releases cb = k) (hkn : (k : Int) ≤ n)
    (hsig : dbus_message_is_signal s "org.freedesktop.DBus" "NameOwnerChanged" = true)
    (hargs : dbus_message_get_args s = some (name, old, new))
    (hname : m.service_name = some name) :
    (∀ pre post, cb = pre ++ post →
      ∃ wj mj, run_cb (cb_entry w a m new) a pre = some wj ∧
        wj.heap a = Cell.live mj ∧ mj.ref = n + 1 - releases pre ∧ mj.ref ≥ 1 ∧
        Event.free a ∉ wj.trace.drop w.trace.length) ∧
    ∃ w1 m1 evs tail,
      filter_handler w s a = some (DBusHandlerResult.NOT_YET_HANDLED, w1) ∧
      (w1.heap a).obj = some m1 ∧ m1.ref = n - k ∧
      ((w1.heap a).isFreed = true ↔ (k : Int) = n) ∧
      w1.trace = w.trace ++ Event.cb_enter a :: evs ++ Event.cb_return a :: tail ∧
      Event.free a ∉ evs ∧
      tail.count (Event.free a) = (if (k : Int) = n then 1 else 0) := by
  subst hn hk
  constructor
  · intro pre post hsplit
    have hle : (releases pre : Int) ≤ releases cb := by
      rw [hsplit, releases_append]; push_cast; omega
    have hce := cb_entry_eq w a m new hn1 hmax
    obtain ⟨wj, u, evs, h1, h2, h3, _⟩ :=
      run_cb_alive a pre (cb_entry w a m new)
        { m with busy := cstr_nonempty (some new), ref := m.ref + 1 }
        (by rw [hce]; simp [World.store, World.log]) (by simp; omega)
    refine ⟨wj, { m with busy := cstr_nonempty (some new),
                         ref := m.ref + 1 - releases pre, userdata := u },
      h1, by rw [h2]; simp [World.store], rfl, ?_, ?_⟩
    · show m.ref + 1 - (releases pre : Int) ≥ 1
      omega
    rw [h2]
    simp only [hce, World.store, World.log, List.append_assoc, List.drop_left,
      List.singleton_append]
    intro hmem
    rcases List.mem_cons.mp hmem with h | h
    · cases h
    · exact free_not_mem_of_reads evs a _ h3 h
  · obtain ⟨w1, u, evs, h1, h2, h3, h4, _, _⟩ :=
      filter_handler_dispatch w a m s name old new cb hm hn1 hmax hsig hargs hname hcb hkn
    by_cases hk : (releases cb : Int) = m.ref
    · rw [if_pos hk] at h2 h3
      refine ⟨w1, _, evs, _, h1, by rw [h2]; rfl, by simp [hk], ?_, h3,
        free_not_mem_of_reads evs a _ h4, ?_⟩
      · simp [h2, hk, Cell.isFreed]
      · simp [hk, teardown_events_count_free]
    · rw [if_neg hk] at h2 h3
      refine ⟨w1, _, evs, _, h1, by rw [h2]; rfl, rfl, ?_, h3,
        free_not_mem_of_reads evs a _ h4, ?_⟩
      · simp [h2, hk, Cell.isFreed]
      · simp [hk]

/-- Witness of C3: two references, a callback that releases both. -/
theorem filter_handler_release_in_callback_witness :
    (∀ pre post, [CbOp.release, CbOp.busy, CbOp.release] = pre ++ post →
      ∃ wj mj, run_cb (cb_entry (demo_world 2 (some [CbOp.release, CbOp.busy, CbOp.release])) 0
          (demo_monitor 2 (some [CbOp.release, CbOp.busy, CbOp.release])) "") 0 pre = some wj ∧
        wj.heap 0 = Cell.live mj ∧ mj.ref = 2 + 1 - releases pre ∧ mj.ref ≥ 1 ∧
        Event.free 0 ∉ wj.trace.drop
          (demo_world 2 (some [CbOp.release, CbOp.busy, CbOp.release])).trace.length) ∧
    ∃ w1 m1 evs tail,
      filter_handler (demo_world 2 (some [CbOp.release, CbOp.busy, CbOp.release]))
        (name_owner_changed "org.freedesktop.ReserveDevice1.card0" ":1.42" "") 0 =
          some (DBusHandlerResult.NOT_YET_HANDLED, w1) ∧
      (w1.heap 0).obj = some m1 ∧ m1.ref = 2 - (2 : Nat) ∧
      ((w1.heap 0).isFreed = true ↔ ((2 : Nat) : Int) = 2) ∧
      w1.trace = (demo_world 2 (some [CbOp.release, CbOp.busy, CbOp.release])).trace ++
        Event.cb_enter 0 :: evs ++ Event.cb_return 0 :: tail ∧
      Event.free 0 ∉ evs ∧
      tail.count (Event.free 0) = (if ((2 : Nat) : Int) = 2 then 1 else 0) :=
  filter_handler_release_in_callback
    (demo_world 2 (some [CbOp.release, CbOp.busy, CbOp.release])) 0
    (demo_monitor 2 (some [CbOp.release, CbOp.busy, CbOp.release]))
    (name_owner_changed "org.freedesktop.ReserveDevice1.card0" ":1.42" "")
    "org.freedesktop.ReserveDevice1.card0" ":1.42" ""
    [CbOp.release, CbOp.busy, CbOp.release] 2 2
    rfl rfl (by decide) (by decide) rfl (by decide) (by decide) (by decide) rfl rfl

/-! ## Construction -/

/-- Every construction step succeeding, `rm_watch` returns `0`, the new
handle, an unset error, and the state `watched_world`. -/
theorem rm_watch_all_ok (w : World) (d : String) (cb : Option rm_change_cb_t) (error : Bool)
    (h1 : w.env.calloc_ok = true) (h2 : w.env.strdup_ok = true) (h3 : w.env.malloc_ok = true)
    (h4 : w.env.add_filter_ok = true) (h5 : w.env.add_match_ok = true)
    (h6 : w.env.has_owner_ok = true) :
    rm_watch w true (some ()) (some d) cb error =
      some { ret := 0, handle := some w.brk,
             error := if error then some { is_set := false } else none,
             world := watched_world w d cb } := by
  obtain ⟨heap, brk, conn, ⟨c1, c2, c3, c4, c5, c6, own, c7, c8, c9⟩, trace⟩ := w
  simp only at h1 h2 h3 h4 h5 h6
  subst h1 h2 h3 h4 h5 h6
  simp only [rm_watch, World.store, dbus_connection_ref, dbus_connection_add_filter,
    dbus_bus_add_match, dbus_bus_name_has_owner, World.log,
    watched_world, watched_monitor, rm_monitor.zeroed]
  simp only [Bool.not_true, Bool.false_eq_true, if_false, if_true, List.append_assoc,
    List.singleton_append, List.cons_append, List.nil_append, Option.some.injEq,
    WatchOut.mk.injEq, World.mk.injEq, true_and, and_true]
  funext p
  by_cases hp : p = brk <;> simp [hp]

/-- Some construction step failing, `rm_watch` returns `-ENOMEM` or `-EIO` and
writes no handle. -/
theorem rm_watch_fail_code (w : World) (d : String) (cb : Option rm_change_cb_t)
    (error : Bool)
    (hfail : (w.env.calloc_ok && w.env.strdup_ok && w.env.malloc_ok && w.env.add_filter_ok &&
      w.env.add_match_ok && w.env.has_owner_ok) = false) :
    ∃ out,
      rm_watch w true (some ()) (some d) cb error = some out ∧
      out.ret = (if (w.env.calloc_ok && w.env.strdup_ok && w.env.malloc_ok &&
        w.env.add_filter_ok) = true then - EIO else -ENOMEM) ∧
      out.handle = none := by
  obtain ⟨heap, brk, ⟨rc, fl, mr, st⟩, ⟨c1, c2, c3, c4, c5, c6, own, c7, c8, c9⟩, trace⟩ := w
  simp only at hfail
  have step : ∀ (b1 b2 b3 b4 b5 b6 : Bool), (b1 && b2 && b3 && b4 && b5 && b6) = false →
      b1 = false ∨ (b1 = true ∧ b2 = false) ∨ (b1 = true ∧ b2 = true ∧ b3 = false) ∨
      (b1 = true ∧ b2 = true ∧ b3 = true ∧ b4 = false) ∨
      (b1 = true ∧ b2 = true ∧ b3 = true ∧ b4 = true ∧ b5 = false) ∨
      (b1 = true ∧ b2 = true ∧ b3 = true ∧ b4 = true ∧ b5 = true ∧ b6 = false) := by
    decide
  rcases step c1 c2 c3 c4 c5 c6 hfail with h | ⟨h1, h⟩ | ⟨h1, h2, h⟩ | ⟨h1, h2, h3, h⟩ |
      ⟨h1, h2, h3, h4, h⟩ | ⟨h1, h2, h3, h4, h5, h⟩ <;>
    subst_vars <;> cases c7 <;> cases error <;>
    simp [rm_watch, rm_watch_fail, rm_release, World.store, World.free, World.log,
      dbus_connection_ref, dbus_connection_add_filter, dbus_bus_add_match,
      dbus_bus_name_has_owner, dbus_bus_remove_match, dbus_connection_remove_filter,
      dbus_connection_unref, rm_monitor.zeroed]

/-- C4. With a non-null connection and device name `d`, when no allocation,
filter installation, match subscription or ownership query fails, `rm_watch`
returns `0` and stores through `_m` a live monitor with `ref = 1`,
`filtering = 1`, `matching = 1`, the given callback, and `busy` equal to the
bus's answer to whether `SERVICE_PREFIX ++ d` has an owner; `rm_busy` on that
monitor returns exactly that answer. -/
theorem rm_watch_success (w : World) (d : String) (cb : Option rm_change_cb_t) (error : Bool)
    (h1 : w.env.calloc_ok = true) (h2 : w.env.strdup_ok = true) (h3 : w.env.malloc_ok = true)
    (h4 : w.env.add_filter_ok = true) (h5 : w.env.add_match_ok = true)
    (h6 : w.env.has_owner_ok = true) :
    ∃ out a m,
      rm_watch w true (some ()) (some d) cb error = some out ∧
      out.ret = 0 ∧ out.handle = some a ∧ out.world.heap a = Cell.live m ∧
      m.ref = 1 ∧ m.filtering = true ∧ m.matching = true ∧ m.change_cb = cb ∧
      m.busy = w.env.owner (SERVICE_PREFIX ++ d) ∧
      rm_busy out.world out.handle =
        some (if w.env.owner (SERVICE_PREFIX ++ d) then 1 else 0, out.world) := by
  refine ⟨_, w.brk, watched_monitor w.env d cb, rm_watch_all_ok w d cb error h1 h2 h3 h4 h5 h6,
    rfl, rfl, ?_, rfl, rfl, rfl, rfl, rfl, ?_⟩
  · simp [watched_world]
  · simp [rm_busy, watched_world, watched_monitor]

/-- Witness of C4: watching `card1` on the connection of the demo state. -/
theorem rm_watch_success_witness :
    ∃ out a m,
      rm_watch (demo_world 1 none) true (some ()) (some "card1") (some [CbOp.busy]) true =
        some out ∧
      out.ret = 0 ∧ out.handle = some a ∧ out.world.heap a = Cell.live m ∧
      m.ref = 1 ∧ m.filtering = true ∧ m.matching = true ∧ m.change_cb = some [CbOp.busy] ∧
      m.busy = (demo_world 1 none).env.owner (SERVICE_PREFIX ++ "card1") ∧
      rm_busy out.world out.handle =
        some (if (demo_world 1 none).env.owner (SERVICE_PREFIX ++ "card1") then 1 else 0,
          out.world) :=
  rm_watch_success (demo_world 1 none) "card1" (some [CbOp.busy]) true rfl rfl rfl rfl rfl rfl

/-- C5, amended. With a non-null connection and device name, when some
construction step fails (`calloc`, `strdup`, `malloc`, installing the filter,
adding the match rule, the ownership query), `rm_watch` returns a negative
error, `-ENOMEM` for the first four and `-EIO` for the two bus requests, and
does not write the output handle; the monitor it had allocated is freed. Among
the calls it made, the filter is removed exactly as often as it was installed,
the connection reference is dropped exactly as often as it was taken, and
removal of the match rule is requested (best effort, the outcome is not
looked at) exactly as often as the rule was added, each at most once and only
when the steps before it succeeded. The connection's reference count, filters
and sent messages are as before. Its match rules are as before whenever the
removal request, if one was made, is honoured by the bus; when the bus does
not honour it the rule that was added stays registered. -/
theorem rm_watch_failure_unwinds (w : World) (d : String) (cb : Option rm_change_cb_t)
    (error : Bool)
    (hfail : (w.env.calloc_ok && w.env.strdup_ok && w.env.malloc_ok && w.env.add_filter_ok &&
      w.env.add_match_ok && w.env.has_owner_ok) = false) :
    ∃ out,
      rm_watch w true (some ()) (some d) cb error = some out ∧
      out.ret = (if (w.env.calloc_ok && w.env.strdup_ok && w.env.malloc_ok &&
        w.env.add_filter_ok) = true then - EIO else -ENOMEM) ∧
      out.ret < 0 ∧
      out.handle = none ∧
      (w.env.calloc_ok = true → (out.world.heap w.brk).isFreed = true) ∧
      (w.env.calloc_ok = false → out.world.heap = w.heap) ∧
      out.world.trace = w.trace ++ out.world.trace.drop w.trace.length ∧
      (out.world.trace.drop w.trace.length).count (Event.add_filter w.brk true) =
        (if (w.env.calloc_ok && w.env.strdup_ok && w.env.malloc_ok &&
          w.env.add_filter_ok) = true then 1 else 0) ∧
      (out.world.trace.drop w.trace.length).count (Event.remove_filter w.brk) =
        (out.world.trace.drop w.trace.length).count (Event.add_filter w.brk true) ∧
      (out.world.trace.drop w.trace.length).count (Event.add_match true) =
        (if (w.env.calloc_ok && w.env.strdup_ok && w.env.malloc_ok &&
          w.env.add_filter_ok && w.env.add_match_ok) = true then 1 else 0) ∧
      (out.world.trace.drop w.trace.length).count
          (Event.remove_match w.env.remove_match_ok) =
        (out.world.trace.drop w.trace.length).count (Event.add_match true) ∧
      (out.world.trace.drop w.trace.length).count
          (Event.remove_match (!w.env.remove_match_ok)) = 0 ∧
      (out.world.trace.drop w.trace.length).count Event.conn_ref =
        (if (w.env.calloc_ok && w.env.strdup_ok) = true then 1 else 0) ∧
      (out.world.trace.drop w.trace.length).count Event.conn_unref =
        (out.world.trace.drop w.trace.length).count Event.conn_ref ∧
      out.world.conn.refcount = w.conn.refcount ∧
      out.world.conn.filters = w.conn.filters ∧
      out.world.conn.sent = w.conn.sent ∧
      ((w.env.remove_match_ok = true ∨
          (w.env.calloc_ok && w.env.strdup_ok && w.env.malloc_ok && w.env.add_filter_ok &&
            w.env.add_match_ok) = false) →
        out.world.conn = w.conn) ∧
      ((w.env.remove_match_ok = false ∧
          (w.env.calloc_ok && w.env.strdup_ok && w.env.malloc_ok && w.env.add_filter_ok &&
            w.env.add_match_ok) = true) →
        out.world.conn =
          { w.conn with match_rules := NAME_OWNER_CHANGED_RULE :: w.conn.match_rules }) := by
  obtain ⟨heap, brk, ⟨rc, fl, mr, st⟩, ⟨c1, c2, c3, c4, c5, c6, own, c7, c8, c9⟩, trace⟩ := w
  simp only at hfail
  have step : ∀ (b1 b2 b3 b4 b5 b6 : Bool), (b1 && b2 && b3 && b4 && b5 && b6) = false →
      b1 = false ∨ (b1 = true ∧ b2 = false) ∨ (b1 = true ∧ b2 = true ∧ b3 = false) ∨
      (b1 = true ∧ b2 = true ∧ b3 = true ∧ b4 = false) ∨
      (b1 = true ∧ b2 = true ∧ b3 = true ∧ b4 = true ∧ b5 = false) ∨
      (b1 = true ∧ b2 = true ∧ b3 = true ∧ b4 = true ∧ b5 = true ∧ b6 = false) := by
    decide
  rcases step c1 c2 c3 c4 c5 c6 hfail with h | ⟨h1, h⟩ | ⟨h1, h2, h⟩ | ⟨h1, h2, h3, h⟩ |
      ⟨h1, h2, h3, h4, h⟩ | ⟨h1, h2, h3, h4, h5, h⟩ <;>
    subst_vars <;> cases c7 <;> cases error <;>
    simp [rm_watch, rm_watch_fail, rm_release, World.store, World.free, World.log,
      dbus_connection_ref, dbus_connection_add_filter, dbus_bus_add_match,
      dbus_bus_name_has_owner, dbus_bus_remove_match, dbus_connection_remove_filter,
      dbus_connection_unref, rm_monitor.zeroed, EIO, ENOMEM, List.count_cons, Cell.isFreed]

/-- Witness of C5: the ownership query fails after filter and match rule were
installed and the bus honours the removal; `rm_watch` returns `-EIO`, writes
no handle and leaves the connection as it was. -/
theorem rm_watch_failure_unwinds_witness :
    ∃ out,
      rm_watch { demo_world 1 none with env := query_fails_env } true (some ()) (some "card1")
        none true = some out ∧
      out.ret = - EIO ∧ out.handle = none ∧ out.world.conn = (demo_world 1 none).conn := by
  obtain ⟨out, h1, h2, _, h4, _, _, _, _, _, _, _, _, _, _, _, _, _, h18, _⟩ :=
    rm_watch_failure_unwinds { demo_world 1 none with env := query_fails_env } "card1" none true
      rfl
  exact ⟨out, h1, h2, h4, h18 (Or.inl rfl)⟩

/-- Counterexample to C5: on the demo connection the ownership query fails
after the match rule was added, and the bus does not honour the removal that
`rm_watch` requests with a `NULL` error. `rm_watch` returns `-EIO` and writes
no handle, but the connection is not as it was found: the rule that was added
is still registered. -/
theorem rm_watch_unwind_leaves_match_rule :
    ∃ out,
      rm_watch { demo_world 1 none with env := removal_fails_env } true (some ()) (some "card1")
        none true = some out ∧
      out.ret = - EIO ∧ out.handle = none ∧
      out.world.conn.match_rules =
        NAME_OWNER_CHANGED_RULE :: (demo_world 1 none).conn.match_rules ∧
      out.world.conn ≠ (demo_world 1 none).conn := by
  refine ⟨_, rfl, rfl, rfl, rfl, ?_⟩
  intro h
  have hlen := congrArg (fun c => c.match_rules.length) h
  revert hlen
  decide

/-- C6. When the output handle pointer, the connection or the device name is
null, `rm_watch` returns `-EINVAL` and has done nothing but initialise the
error object: the output handle is not written and the state (heap, allocator,
connection with its reference count, filters and match rules, log of calls) is
the one it started from. -/
theorem rm_watch_null_argument (w : World) ( _m : Bool) (connection : Option Unit)
    (device_name : Option String) (change_cb : Option rm_change_cb_t) (error : Bool)
    (h : _m = false ∨ connection = none ∨ device_name = none) :
    rm_watch w _m connection device_name change_cb error =
      some { ret := -EINVAL, handle := none,
             error := if error then some { is_set := false } else none, world := w } := by
  cases _m <;> cases connection <;> cases device_name <;> simp_all [rm_watch]

/-- Witness of C6: a null device name. -/
theorem rm_watch_null_argument_witness :
    rm_watch (demo_world 1 none) true (some ()) none (some [CbOp.release]) false =
      some { ret := -EINVAL, handle := none,
             error := if false then some { is_set := false } else none,
             world := demo_world 1 none } :=
  rm_watch_null_argument (demo_world 1 none) true (some ()) none (some [CbOp.release]) false
    (Or.inr (Or.inr rfl))

/-- Counterexample to C7: on the demo connection, with nothing failing,
`rm_watch` called with the empty identifier returns `0` and hands back a
monitor; it does not fail with `-EINVAL`. -/
theorem rm_watch_empty_identifier_accepted :
    (∃ out, rm_watch (demo_world 1 none) true (some ()) (some "") none true = some out ∧
      out.ret = 0 ∧ out.handle = some 1) ∧
    ¬ (∃ out, rm_watch (demo_world 1 none) true (some ()) (some "") none true = some out ∧
      out.ret = -EINVAL ∧ out.handle = none) := by
  have h := rm_watch_all_ok (demo_world 1 none) "" none true rfl rfl rfl rfl rfl rfl
  refine ⟨⟨_, h, rfl, rfl⟩, ?_⟩
  rintro ⟨out, h1, h2, _⟩
  rw [h] at h1
  cases h1
  revert h2
  decide

/-- C7, amended. `rm_watch` does not test the identifier for emptiness: with a
non-null connection and the empty identifier it never returns `-EINVAL`, and
when no construction step fails it returns `0` and a monitor whose
`service_name` is the bare `SERVICE_PREFIX`. -/
theorem rm_watch_empty_identifier (w : World) (cb : Option rm_change_cb_t) (error : Bool) :
    (∀ out, rm_watch w true (some ()) (some "") cb error = some out → out.ret ≠ -EINVAL) ∧
    ((w.env.calloc_ok && w.env.strdup_ok && w.env.malloc_ok && w.env.add_filter_ok &&
        w.env.add_match_ok && w.env.has_owner_ok) = true →
      ∃ out m, rm_watch w true (some ()) (some "") cb error = some out ∧
        out.ret = 0 ∧ out.handle = some w.brk ∧ out.world.heap w.brk = Cell.live m ∧
        m.device_name = some "" ∧ m.service_name = some SERVICE_PREFIX) := by
  constructor
  · intro out hout
    cases hall : (w.env.calloc_ok && w.env.strdup_ok && w.env.malloc_ok &&
        w.env.add_filter_ok && w.env.add_match_ok && w.env.has_owner_ok)
    · obtain ⟨out2, h1, h2, _⟩ := rm_watch_fail_code w "" cb error hall
      rw [hout] at h1
      cases h1
      rw [h2]
      split_ifs <;> decide
    · simp only [Bool.and_eq_true] at hall
      obtain ⟨⟨⟨⟨⟨h1, h2⟩, h3⟩, h4⟩, h5⟩, h6⟩ := hall
      rw [rm_watch_all_ok w "" cb error h1 h2 h3 h4 h5 h6] at hout
      cases hout
      show (0 : Int) ≠ -EINVAL
      decide
  · intro hall
    simp only [Bool.and_eq_true] at hall
    obtain ⟨⟨⟨⟨⟨h1, h2⟩, h3⟩, h4⟩, h5⟩, h6⟩ := hall
    refine ⟨_, watched_monitor w.env "" cb, rm_watch_all_ok w "" cb error h1 h2 h3 h4 h5 h6,
      rfl, rfl, by simp [watched_world], rfl, ?_⟩
    simp [watched_monitor]

/-- Witness of the amended C7: the empty identifier on the demo connection. -/
theorem rm_watch_empty_identifier_witness :
    ∃ out m, rm_watch (demo_world 1 none) true (some ()) (some "") none true = some out ∧
      out.ret = 0 ∧ out.handle = some (demo_world 1 none).brk ∧
      out.world.heap (demo_world 1 none).brk = Cell.live m ∧
      m.device_name = some "" ∧ m.service_name = some SERVICE_PREFIX :=
  (rm_watch_empty_identifier (demo_world 1 none) none true).2 rfl

/-- C8. A `NameOwnerChanged` signal whose arguments do not parse as three
strings, delivered to a live monitor: every monitor (so `busy` and `ref`) is
unchanged and the callback is not invoked; the result is
`DBUS_HANDLER_RESULT_HANDLED` exactly when the "Invalid arguments" error reply
was both constructed and sent, in which case that reply, addressed to the
sender, is the one message added to the connection's output; the result is
`DBUS_HANDLER_RESULT_NEED_MEMORY` exactly when constructing or sending the
reply fails, and then nothing at all has changed. -/
theorem filter_handler_malformed (w : World) (a : Ptr) (m : rm_monitor) (s : DBusMessage)
    (hm : w.heap a = Cell.live m) (href : m.ref ≥ 1)
    (hsig : dbus_message_is_signal s "org.freedesktop.DBus" "NameOwnerChanged" = true)
    (hargs : dbus_message_get_args s = none) :
    ∃ r w1,
      filter_handler w s a = some (r, w1) ∧
      w1.heap = w.heap ∧
      (∀ p, Event.cb_enter p ∉ w1.trace.drop w.trace.length) ∧
      (r = DBusHandlerResult.HANDLED ↔
        (w.env.new_error_ok = true ∧ w.env.send_ok = true)) ∧
      (r = DBusHandlerResult.NEED_MEMORY ↔
        (w.env.new_error_ok = false ∨ w.env.send_ok = false)) ∧
      (r = DBusHandlerResult.HANDLED →
        w1.conn.sent = w.conn.sent ++
          [dbus_message_new_error s DBUS_ERROR_INVALID_ARGS "Invalid arguments"] ∧
        (dbus_message_new_error s DBUS_ERROR_INVALID_ARGS "Invalid arguments").destination =
          s.sender ∧
        w1.trace = w.trace ++ [Event.send_reply]) ∧
      (r = DBusHandlerResult.NEED_MEMORY → w1 = w) := by
  have hres : filter_handler w s a = some (filter_handler_invalid w s) := by
    simp [filter_handler, hm, href, hsig, hargs]
  refine ⟨(filter_handler_invalid w s).1, (filter_handler_invalid w s).2, hres, ?_⟩
  cases h1 : w.env.new_error_ok <;> cases h2 : w.env.send_ok <;>
    simp [filter_handler_invalid, dbus_connection_send, h1, h2, dbus_message_new_error]

/-- Witness of C8: a signal with a string and a non-string argument. -/
theorem filter_handler_malformed_witness :
    ∃ r w1,
      filter_handler (demo_world 1 (some [CbOp.release])) malformed_signal 0 = some (r, w1) ∧
      w1.heap = (demo_world 1 (some [CbOp.release])).heap ∧
      (∀ p, Event.cb_enter p ∉
        w1.trace.drop (demo_world 1 (some [CbOp.release])).trace.length) ∧
      (r = DBusHandlerResult.HANDLED ↔
        ((demo_world 1 (some [CbOp.release])).env.new_error_ok = true ∧
          (demo_world 1 (some [CbOp.release])).env.send_ok = true)) ∧
      (r = DBusHandlerResult.NEED_MEMORY ↔
        ((demo_world 1 (some [CbOp.release])).env.new_error_ok = false ∨
          (demo_world 1 (some [CbOp.release])).env.send_ok = false)) ∧
      (r = DBusHandlerResult.HANDLED →
        w1.conn.sent = (demo_world 1 (some [CbOp.release])).conn.sent ++
          [dbus_message_new_error malformed_signal DBUS_ERROR_INVALID_ARGS
            "Invalid arguments"] ∧
        (dbus_message_new_error malformed_signal DBUS_ERROR_INVALID_ARGS
          "Invalid arguments").destination = malformed_signal.sender ∧
        w1.trace = (demo_world 1 (some [CbOp.release])).trace ++ [Event.send_reply]) ∧
      (r = DBusHandlerResult.NEED_MEMORY → w1 = demo_world 1 (some [CbOp.release])) :=
  filter_handler_malformed (demo_world 1 (some [CbOp.release])) 0
    (demo_monitor 1 (some [CbOp.release])) malformed_signal rfl (by decide) (by decide) rfl

/-! ## Accessors and release -/

/-- C9. `rm_busy` is a pure read. On a null handle it returns `-EINVAL`. On a
live monitor it returns `1` when the cached `busy` flag is set and `0`
otherwise, and the state (every monitor field, the connection, the log) is
unchanged; so any number of calls in a row return the same value and leave the
state as it was. -/
theorem rm_busy_pure_read (w : World) (a : Ptr) (m : rm_monitor)
    (hm : w.heap a = Cell.live m) (href : m.ref > 0) :
    rm_busy w none = some (-EINVAL, w) ∧
    rm_busy w (some a) = some (if m.busy then 1 else 0, w) ∧
    ∀ n, rm_busy_repeat w (some a) n = some (List.replicate n (if m.busy then 1 else 0), w) := by
  have h1 : rm_busy w (some a) = some (if m.busy then 1 else 0, w) := by
    simp [rm_busy, hm, href]
  refine ⟨rfl, h1, ?_⟩
  intro n
  induction n with
  | zero => rfl
  | succ n ih => simp [rm_busy_repeat, h1, ih, List.replicate_succ]

/-- Witness of C9: the demo monitor, not busy. -/
theorem rm_busy_pure_read_witness :
    rm_busy (demo_world 1 none) none = some (-EINVAL, demo_world 1 none) ∧
    rm_busy (demo_world 1 none) (some 0) =
      some (if (demo_monitor 1 none).busy then 1 else 0, demo_world 1 none) ∧
    ∀ n, rm_busy_repeat (demo_world 1 none) (some 0) n =
      some (List.replicate n (if (demo_monitor 1 none).busy then 1 else 0),
        demo_world 1 none) :=
  rm_busy_pure_read (demo_world 1 none) 0 (demo_monitor 1 none) rfl (by decide)

/-- C10. `rm_release` on a null handle does nothing. On a monitor with
`ref > 1` it decrements `ref` by exactly one and changes nothing else: the
other fields of the monitor (`busy`, `filtering`, `matching`, the names, the
callback, `userdata`, the connection pointer), every other heap cell, the
connection with its filters, match rules and reference count, and the log of
calls (no removal, no unref, no free) are unchanged. -/
theorem rm_release_frame (w : World) (a : Ptr) (m : rm_monitor)
    (hm : w.heap a = Cell.live m) (href : m.ref > 1) :
    rm_release w none = some w ∧
    ∃ w1, rm_release w (some a) = some w1 ∧
      w1.heap a = Cell.live { m with ref := m.ref - 1 } ∧
      (∀ p, p ≠ a → w1.heap p = w.heap p) ∧
      w1.conn = w.conn ∧ w1.trace = w.trace ∧ w1.brk = w.brk := by
  refine ⟨rfl, _, rm_release_not_last w a m hm href, ?_, ?_, rfl, rfl, rfl⟩
  · simp [World.store]
  · intro p hp
    simp [World.store, hp]

/-- Witness of C10: the demo monitor held twice. -/
theorem rm_release_frame_witness :
    rm_release (demo_world 2 none) none = some (demo_world 2 none) ∧
    ∃ w1, rm_release (demo_world 2 none) (some 0) = some w1 ∧
      w1.heap 0 = Cell.live { demo_monitor 2 none with ref := (demo_monitor 2 none).ref - 1 } ∧
      (∀ p, p ≠ 0 → w1.heap p = (demo_world 2 none).heap p) ∧
      w1.conn = (demo_world 2 none).conn ∧ w1.trace = (demo_world 2 none).trace ∧
      w1.brk = (demo_world 2 none).brk :=
  rm_release_frame (demo_world 2 none) 0 (demo_monitor 2 none) rfl (by decide)

/-! ## Sequences of notifications -/

theorem last_busy_cons (sn : String) (init : Bool) (s : DBusMessage) (rest : List DBusMessage) :
    last_busy sn init (s :: rest) =
      last_busy sn (if names_service sn s then new_owner_nonempty s else init) rest := by
  unfold last_busy
  by_cases h : names_service sn s = true
  · simp only [List.filter_cons, h, if_true, List.getLast?_cons]
    cases List.getLast? (List.filter (names_service sn) rest) <;> rfl
  · simp only [List.filter_cons, h, if_false]
    rfl

/-- One well-formed notification delivered to a live monitor whose callback
does not release it (the count below `INT_MAX` when a callback is registered): the handler returns, the monitor stays live with the same
fields except `busy`, which follows the notification when it names the
service, and `userdata`; the log grows by one invocation of the callback when
the notification names the service and a callback is registered, and by
nothing otherwise. -/
theorem filter_handler_step (w : World) (a : Ptr) (m : rm_monitor) (sn : String)
    (s : DBusMessage)
    (hm : w.heap a = Cell.live m) (href : m.ref ≥ 1) (hname : m.service_name = some sn)
    (hcb : ∀ cb, m.change_cb = some cb → releases cb = 0)
    (hmax : m.change_cb.isSome = true → m.ref < INT_MAX)
    (hsig : dbus_message_is_signal s "org.freedesktop.DBus" "NameOwnerChanged" = true)
    (hargs : (dbus_message_get_args s).isSome = true) :
    ∃ w1 u blk r,
      filter_handler w s a = some (r, w1) ∧
      w1.heap a = Cell.live
        { m with busy := if names_service sn s then new_owner_nonempty s else m.busy,
                 userdata := u } ∧
      w1.trace = w.trace ++ blk ∧
      ((names_service sn s = true ∧ m.change_cb.isSome = true) → is_invocation a s blk) ∧
      (¬ (names_service sn s = true ∧ m.change_cb.isSome = true) → blk = []) := by
  cases hg : dbus_message_get_args s with
  | none => simp [hg] at hargs
  | some t =>
    obtain ⟨name, old, new⟩ := t
    have hns : names_service sn s = decide (name = sn) := by simp [names_service, hg]
    have hnew : new_owner_nonempty s = cstr_nonempty (some new) := by
      simp [new_owner_nonempty, hg]
    by_cases hn : name = sn
    · subst hn
      cases hc : m.change_cb with
      | none =>
        refine ⟨w.store a { m with busy := cstr_nonempty (some new) }, m.userdata, [],
          DBusHandlerResult.NOT_YET_HANDLED, ?_, ?_, ?_, ?_, ?_⟩
        · simp [filter_handler, hm, href, hsig, hg, hname, hc]
        · simp [World.store, hns, hnew, hc]
        · simp [World.store]
        · simp
        · simp
      | some cb =>
        have hk : (releases cb : Int) ≤ m.ref := by
          rw [hcb cb hc]; push_cast; omega
        have hne : ¬ (releases cb : Int) = m.ref := by
          rw [hcb cb hc]; push_cast; omega
        obtain ⟨w1, u, evs, h1, h2, h3, h4, _, _⟩ :=
          filter_handler_dispatch w a m s name old new cb hm href (hmax (by simp [hc])) hsig hg
            hname hc hk
        rw [if_neg hne] at h2 h3
        refine ⟨w1, u, Event.cb_enter a :: evs ++ [Event.cb_return a],
          DBusHandlerResult.NOT_YET_HANDLED, h1, ?_, ?_, ?_, ?_⟩
        · rw [h2, hcb cb hc]
          simp [hns, hnew, hc]
        · rw [h3]
          simp
        · intro _
          refine ⟨evs, rfl, ?_⟩
          rw [hnew]
          exact h4
        · intro hcontra
          exact absurd ⟨by simp [hns], by simp⟩ hcontra
    · refine ⟨w, m.userdata, [], DBusHandlerResult.NOT_YET_HANDLED, ?_, ?_, ?_, ?_, ?_⟩
      · simp [filter_handler, hm, href, hsig, hg, hname, hn]
      · simp [hns, hn, hm]
      · simp
      · intro hcontra
        simp [hns, hn] at hcontra
      · simp

/-- C11. A finite sequence of well-formed `NameOwnerChanged` notifications
delivered in order to a live monitor whose callback does not release it (and
whose count, when a callback is registered, is below `INT_MAX`, so that the
temporary reference of each invocation does not overflow the C `int`): the
delivery ends with the monitor live and `busy` equal to the non-emptiness of
the new owner in the last notification naming `service_name` (the initial
`busy` when none names it). When a callback is registered the log grows by
exactly one invocation per notification naming `service_name`, in arrival
order, each invocation seeing the `busy` of its own notification, whether or
not the value changed; when none is registered the log does not grow. -/
theorem deliver_notifications (a : Ptr) (sn : String) (msgs : List DBusMessage) :
    ∀ (w : World) (m : rm_monitor),
      w.heap a = Cell.live m → m.ref ≥ 1 → m.service_name = some sn →
      (∀ cb, m.change_cb = some cb → releases cb = 0) →
      (m.change_cb.isSome = true → m.ref < INT_MAX) →
      (∀ s ∈ msgs, dbus_message_is_signal s "org.freedesktop.DBus" "NameOwnerChanged" = true ∧
        (dbus_message_get_args s).isSome = true) →
      ∃ w1 m1 blocks,
        deliver w a msgs = some w1 ∧
        w1.heap a = Cell.live m1 ∧
        m1.busy = last_busy sn m.busy msgs ∧
        m1.ref = m.ref ∧ m1.service_name = m.service_name ∧ m1.change_cb = m.change_cb ∧
        w1.trace = w.trace ++ blocks.flatten ∧
        (m.change_cb.isSome = true →
          List.Forall₂ (fun s blk => is_invocation a s blk)
            (msgs.filter (names_service sn)) blocks) ∧
        (m.change_cb = none → blocks = []) ∧
        w1.trace.count (Event.cb_enter a) = w.trace.count (Event.cb_enter a) +
          (if m.change_cb.isSome then (msgs.filter (names_service sn)).length else 0) := by
  induction msgs with
  | nil =>
    intro w m hm _ _ _ _ _
    exact ⟨w, m, [], rfl, hm, rfl, rfl, rfl, rfl, by simp, fun _ => List.Forall₂.nil,
      fun _ => rfl, by simp⟩
  | cons s rest ih =>
    intro w m hm href hname hcb hmax hwf
    obtain ⟨hsig, hargs⟩ := hwf s (List.mem_cons_self _ _)
    obtain ⟨w1, u, blk, r, h1, h2, h3, h4, h5⟩ :=
      filter_handler_step w a m sn s hm href hname hcb hmax hsig hargs
    obtain ⟨w2, m2, blocks, g1, g2, g3, g4, g5, g6, g7, g8, g9, g10⟩ :=
      ih w1 _ h2 href hname hcb hmax (fun t ht => hwf t (List.mem_cons_of_mem _ ht))
    simp only at g3 g4 g5 g6 g8 g9 g10
    by_cases hact : names_service sn s = true ∧ m.change_cb.isSome = true
    · obtain ⟨hns, hsome⟩ := hact
      have hinv := h4 ⟨hns, hsome⟩
      refine ⟨w2, m2, blk :: blocks, ?_, g2, ?_, g4, g5, g6, ?_, ?_, ?_, ?_⟩
      · simp [deliver, h1, g1]
      · rw [g3, last_busy_cons]
      · rw [g7, h3]
        simp
      · intro _
        simp only [List.filter_cons, hns, if_true]
        exact List.Forall₂.cons hinv (g8 hsome)
      · intro hnone
        rw [hnone] at hsome
        simp at hsome
      · rw [g10, h3]
        obtain ⟨evs, hblk, hevs⟩ := hinv
        have hnot : Event.cb_enter a ∉ evs := cb_enter_not_mem_of_reads evs a _ hevs
        simp [hblk, List.filter_cons, hns, hsome, List.count_cons,
          List.count_eq_zero_of_not_mem hnot]
        omega
    · have hnil := h5 hact
      subst hnil
      refine ⟨w2, m2, blocks, ?_, g2, ?_, g4, g5, g6, ?_, ?_, g9, ?_⟩
      · simp [deliver, h1, g1]
      · rw [g3, last_busy_cons]
      · rw [g7, h3]
        simp
      · intro hsome
        have hns : ¬ names_service sn s = true := fun h => hact ⟨h, hsome⟩
        simp only [List.filter_cons, hns, if_false]
        exact g8 hsome
      · rw [g10, h3]
        by_cases hsome : m.change_cb.isSome = true
        · have hns : ¬ names_service sn s = true := fun h => hact ⟨h, hsome⟩
          simp [List.filter_cons, hns, hsome]
        · simp [hsome]

/-- Witness of C11: the three notifications of the specification's scenario
delivered to the monitor of `card0`, whose callback reads `busy`. -/
theorem deliver_notifications_witness :
    ∃ w1 m1 blocks,
      deliver (demo_world 1 (some [CbOp.busy])) 0 demo_notifications = some w1 ∧
      w1.heap 0 = Cell.live m1 ∧
      m1.busy = last_busy "org.freedesktop.ReserveDevice1.card0"
        (demo_monitor 1 (some [CbOp.busy])).busy demo_notifications ∧
      m1.ref = (demo_monitor 1 (some [CbOp.busy])).ref ∧
      m1.service_name = (demo_monitor 1 (some [CbOp.busy])).service_name ∧
      m1.change_cb = (demo_monitor 1 (some [CbOp.busy])).change_cb ∧
      w1.trace = (demo_world 1 (some [CbOp.busy])).trace ++ blocks.flatten ∧
      ((demo_monitor 1 (some [CbOp.busy])).change_cb.isSome = true →
        List.Forall₂ (fun s blk => is_invocation 0 s blk)
          (demo_notifications.filter (names_service "org.freedesktop.ReserveDevice1.card0"))
          blocks) ∧
      ((demo_monitor 1 (some [CbOp.busy])).change_cb = none → blocks = []) ∧
      w1.trace.count (Event.cb_enter 0) =
        (demo_world 1 (some [CbOp.busy])).trace.count (Event.cb_enter 0) +
          (if (demo_monitor 1 (some [CbOp.busy])).change_cb.isSome then
            (demo_notifications.filter
              (names_service "org.freedesktop.ReserveDevice1.card0")).length
          else 0) :=
  deliver_notifications 0 "org.freedesktop.ReserveDevice1.card0" demo_notifications
    (demo_world 1 (some [CbOp.busy])) (demo_monitor 1 (some [CbOp.busy]))
    rfl (by decide) rfl (by intro cb h; cases h; rfl) (by intro _; decide)
    (by
      intro s hs
      simp only [demo_notifications, List.mem_cons, List.mem_singleton, List.not_mem_nil,
        or_false] at hs
      rcases hs with h | h | h <;> subst h <;> exact ⟨by decide, rfl⟩)

/-! ## Further facts on the accessors, release and the interceptor -/

/-- C12. On a live monitor `rm_get_userdata` called after
`rm_set_userdata (m, v)` returns `v`; `rm_set_userdata` changes the `userdata`
field only (`ref`, `busy`, the flags, the names, the callback, the connection
pointer, every other heap cell, the connection and the log are unchanged). On
a null handle `rm_set_userdata` does nothing and `rm_get_userdata` returns
`NULL`. -/
theorem rm_userdata_roundtrip (w : World) (a : Ptr) (m : rm_monitor) (v : Nat)
    (hm : w.heap a = Cell.live m) (href : m.ref > 0) :
    (∃ w1, rm_set_userdata w (some a) v = some w1 ∧
      rm_get_userdata w1 (some a) = some (v, w1) ∧
      w1.heap a = Cell.live { m with userdata := v } ∧
      (∀ p, p ≠ a → w1.heap p = w.heap p) ∧
      w1.conn = w.conn ∧ w1.trace = w.trace ∧ w1.brk = w.brk) ∧
    rm_set_userdata w none v = some w ∧
    rm_get_userdata w none = some (0, w) := by
  refine ⟨⟨w.store a { m with userdata := v }, ?_, ?_, ?_, ?_, rfl, rfl, rfl⟩, rfl, rfl⟩
  · simp [rm_set_userdata, hm, href]
  · simp [rm_get_userdata, World.store, href]
  · simp [World.store]
  · intro p hp
    simp [World.store, hp]

/-- Witness of C12: storing the pointer value `4096` in the demo monitor. -/
theorem rm_userdata_roundtrip_witness :
    (∃ w1, rm_set_userdata (demo_world 1 none) (some 0) 4096 = some w1 ∧
      rm_get_userdata w1 (some 0) = some (4096, w1) ∧
      w1.heap 0 = Cell.live { demo_monitor 1 none with userdata := 4096 } ∧
      (∀ p, p ≠ 0 → w1.heap p = (demo_world 1 none).heap p) ∧
      w1.conn = (demo_world 1 none).conn ∧ w1.trace = (demo_world 1 none).trace ∧
      w1.brk = (demo_world 1 none).brk) ∧
    rm_set_userdata (demo_world 1 none) none 4096 = some (demo_world 1 none) ∧
    rm_get_userdata (demo_world 1 none) none = some (0, demo_world 1 none) :=
  rm_userdata_roundtrip (demo_world 1 none) 0 (demo_monitor 1 none) 4096 rfl (by decide)

/-- C13. `rm_release` on a monitor with `ref = 1` whose flags are those of a
fully or partially constructed monitor (a set flag comes with a held
connection): it returns, whatever the outcome of the match-rule removal, and
frees the monitor; among the calls it makes, the removal of the match rule is
requested once if `matching` is set and not at all otherwise, the filter is
removed once if `filtering` is set and not at all otherwise, the connection
reference is dropped once if one is held and not at all otherwise; the
connection loses exactly the filter, the reference, and the rule when the bus
honours the removal. -/
theorem rm_release_teardown (w : World) (a : Ptr) (m : rm_monitor)
    (hm : w.heap a = Cell.live m) (href : m.ref = 1)
    (hmatch : m.matching = true → m.connection.isSome = true)
    (hfilter : m.filtering = true → m.connection.isSome = true) :
    ∃ w1, rm_release w (some a) = some w1 ∧
      w1.heap a = Cell.freed { m with ref := 0 } ∧
      w1.trace = w.trace ++ w1.trace.drop w.trace.length ∧
      (w1.trace.drop w.trace.length).count (Event.remove_match w.env.remove_match_ok) =
        (if m.matching = true then 1 else 0) ∧
      (w1.trace.drop w.trace.length).count (Event.remove_match (!w.env.remove_match_ok)) = 0 ∧
      (w1.trace.drop w.trace.length).count (Event.remove_filter a) =
        (if m.filtering = true then 1 else 0) ∧
      (w1.trace.drop w.trace.length).count Event.conn_unref =
        (if m.connection.isSome = true then 1 else 0) ∧
      (w1.trace.drop w.trace.length).count (Event.free a) = 1 ∧
      w1.conn.match_rules =
        (if m.matching = true ∧ w.env.remove_match_ok = true then
          w.conn.match_rules.erase NAME_OWNER_CHANGED_RULE
        else w.conn.match_rules) ∧
      w1.conn.filters = (if m.filtering = true then w.conn.filters.erase a else w.conn.filters) ∧
      w1.conn.refcount =
        (if m.connection.isSome = true then w.conn.refcount - 1 else w.conn.refcount) ∧
      w1.conn.sent = w.conn.sent := by
  refine ⟨teardown_world w a m, rm_release_last w a m hm href, ?_⟩
  obtain ⟨r, dn, sn, c, b, f, mt, cb, u⟩ := m
  simp only at hmatch hfilter
  cases c <;> cases f <;> cases mt <;> cases hok : w.env.remove_match_ok <;>
    simp_all [teardown_world, teardown_events, teardown_conn, List.count_cons]

/-- Witness of C13: the fully constructed demo monitor, last reference. -/
theorem rm_release_teardown_witness :
    ∃ w1, rm_release (demo_world 1 none) (some 0) = some w1 ∧
      w1.heap 0 = Cell.freed { demo_monitor 1 none with ref := 0 } ∧
      (w1.trace.drop (demo_world 1 none).trace.length).count (Event.remove_filter 0) = 1 ∧
      w1.conn.filters = [] := by
  obtain ⟨w1, h1, h2, _, _, _, h6, _, _, _, h10, _, _⟩ :=
    rm_release_teardown (demo_world 1 none) 0 (demo_monitor 1 none) rfl rfl
      (fun _ => rfl) (fun _ => rfl)
  exact ⟨w1, h1, h2, h6, h10⟩

/-- C14. A message that is not the `NameOwnerChanged` signal of
`org.freedesktop.DBus`, delivered to a live monitor: `filter_handler` returns
`DBUS_HANDLER_RESULT_NOT_YET_HANDLED` and the state is the one it started
from, so no reply is sent, no callback is invoked and no monitor field
changes. -/
theorem filter_handler_other_message (w : World) (a : Ptr) (m : rm_monitor) (s : DBusMessage)
    (hm : w.heap a = Cell.live m) (href : m.ref ≥ 1)
    (hsig : dbus_message_is_signal s "org.freedesktop.DBus" "NameOwnerChanged" = false) :
    filter_handler w s a = some (DBusHandlerResult.NOT_YET_HANDLED, w) := by
  simp [filter_handler, hm, href, hsig]

/-- Witness of C14: a method call named like the signal. -/
theorem filter_handler_other_message_witness :
    filter_handler (demo_world 1 (some [CbOp.release])) method_call_message 0 =
      some (DBusHandlerResult.NOT_YET_HANDLED, demo_world 1 (some [CbOp.release])) :=
  filter_handler_other_message (demo_world 1 (some [CbOp.release])) 0
    (demo_monitor 1 (some [CbOp.release])) method_call_message rfl (by decide) (by decide)

/-! ## Fields written during construction only -/

theorem rm_release_fixed (w w1 : World) (a : Ptr) (h : rm_release w (some a) = some w1) :
    Cell.fixed (w1.heap a) = Cell.fixed (w.heap a) := by
  cases hc : w.heap a with
  | unallocated => simp [rm_release, hc] at h
  | freed m => simp [rm_release, hc] at h
  | live m =>
    by_cases h1 : m.ref > 1
    · rw [rm_release_not_last w a m hc h1] at h
      cases h
      simp [World.store, Cell.fixed, Cell.obj]
    · by_cases h2 : m.ref = 1
      · rw [rm_release_last w a m hc h2] at h
        cases h
        simp [teardown_world, Cell.fixed, Cell.obj]
      · have h3 : ¬ m.ref > 0 := by omega
        simp [rm_release, hc, h3] at h

theorem rm_set_userdata_fixed (w w1 : World) (a : Ptr) (v : Nat)
    (h : rm_set_userdata w (some a) v = some w1) :
    Cell.fixed (w1.heap a) = Cell.fixed (w.heap a) := by
  cases hc : w.heap a with
  | unallocated => simp [rm_set_userdata, hc] at h
  | freed m => simp [rm_set_userdata, hc] at h
  | live m =>
    simp only [rm_set_userdata, hc] at h
    split_ifs at h
    cases h
    simp [World.store, Cell.fixed, Cell.obj]

theorem rm_busy_state (w w1 : World) (a : Ptr) (r : Int)
    (h : rm_busy w (some a) = some (r, w1)) : w1 = w := by
  cases hc : w.heap a with
  | unallocated => simp [rm_busy, hc] at h
  | freed m => simp [rm_busy, hc] at h
  | live m =>
    simp only [rm_busy, hc] at h
    split_ifs at h <;>
      (simp only [Option.some.injEq, Prod.mk.injEq] at h
       exact h.2.symm)

theorem rm_get_userdata_state (w w1 : World) (a : Ptr) (v : Nat)
    (h : rm_get_userdata w (some a) = some (v, w1)) : w1 = w := by
  cases hc : w.heap a with
  | unallocated => simp [rm_get_userdata, hc] at h
  | freed m => simp [rm_get_userdata, hc] at h
  | live m =>
    simp only [rm_get_userdata, hc] at h
    split_ifs at h
    cases h
    rfl

theorem run_op_fixed (w w1 : World) (a : Ptr) (op : CbOp) (h : run_op w a op = some w1) :
    Cell.fixed (w1.heap a) = Cell.fixed (w.heap a) := by
  cases op with
  | release => exact rm_release_fixed w w1 a h
  | busy =>
    simp only [run_op] at h
    cases hb : rm_busy w (some a) with
    | none => simp [hb] at h
    | some p =>
      obtain ⟨r, w2⟩ := p
      simp only [hb, Option.some.injEq] at h
      rw [← h, rm_busy_state w w2 a r hb]
      rfl
  | set_userdata v => exact rm_set_userdata_fixed w w1 a v h
  | get_userdata =>
    simp only [run_op] at h
    cases hb : rm_get_userdata w (some a) with
    | none => simp [hb] at h
    | some p =>
      obtain ⟨r, w2⟩ := p
      simp only [hb, Option.some.injEq] at h
      rw [← h, rm_get_userdata_state w w2 a r hb]
      rfl

theorem run_cb_fixed (a : Ptr) (cb : rm_change_cb_t) :
    ∀ (w w1 : World), run_cb w a cb = some w1 →
      Cell.fixed (w1.heap a) = Cell.fixed (w.heap a) := by
  induction cb with
  | nil =>
    intro w w1 h
    simp only [run_cb, Option.some.injEq] at h
    rw [h]
  | cons op rest ih =>
    intro w w1 h
    simp only [run_cb] at h
    cases hop : run_op w a op with
    | none => simp [hop] at h
    | some w2 =>
      simp only [hop] at h
      rw [ih w2 w1 h, run_op_fixed w w2 a op hop]

/-- Whatever the message and the callback, `filter_handler` leaves the names,
the connection pointer, the two flags and the callback of the monitor as they
were. -/
theorem filter_handler_fixed (w w1 : World) (a : Ptr) (s : DBusMessage)
    (r : DBusHandlerResult) (h : filter_handler w s a = some (r, w1)) :
    Cell.fixed (w1.heap a) = Cell.fixed (w.heap a) := by
  cases hc : w.heap a with
  | unallocated => simp [filter_handler, hc] at h
  | freed m => simp [filter_handler, hc] at h
  | live m =>
    simp only [filter_handler, hc] at h
    split_ifs at h with h1 h2
    · cases hargs : dbus_message_get_args s with
      | none =>
        simp only [hargs, Option.some.injEq] at h
        have hw : (filter_handler_invalid w s).2.heap = w.heap := by
          simp only [filter_handler_invalid, dbus_connection_send]
          split_ifs <;> rfl
        rw [h] at hw
        simp only at hw
        rw [hw, hc]
      | some t =>
        obtain ⟨name, old, new⟩ := t
        simp only [hargs] at h
        cases hsn : m.service_name with
        | none => simp [hsn] at h
        | some sn =>
          simp only [hsn] at h
          split_ifs at h with h3
          · cases hcb : m.change_cb with
            | none =>
              simp only [hcb, Option.some.injEq, Prod.mk.injEq] at h
              rw [← h.2]
              simp [World.store, Cell.fixed, Cell.obj, hsn, hcb]
            | some cb =>
              simp only [hcb] at h
              cases hrun : run_cb (cb_entry w a m new) a cb with
              | none => simp [hrun] at h
              | some w2 =>
                simp only [hrun] at h
                cases hrel : rm_release (w2.log (Event.cb_return a)) (some a) with
                | none => simp [hrel] at h
                | some w3 =>
                  simp only [hrel, Option.some.injEq, Prod.mk.injEq] at h
                  rw [← h.2, rm_release_fixed _ w3 a hrel]
                  have h5 := run_cb_fixed a cb _ w2 hrun
                  simp only [World.log] at h5 ⊢
                  rw [h5]
                  simp [cb_entry, World.store, World.log, Cell.fixed, Cell.obj, hsn, hcb]
          · simp only [Option.some.injEq, Prod.mk.injEq] at h
            rw [← h.2, hc]
    · simp only [Option.some.injEq, Prod.mk.injEq] at h
      rw [← h.2, hc]

theorem apply_op_fixed (w w1 : World) (a : Ptr) (op : Op) (h : apply_op w a op = some w1) :
    Cell.fixed (w1.heap a) = Cell.fixed (w.heap a) := by
  cases op with
  | filter_handler s =>
    simp only [apply_op, Option.map_eq_some'] at h
    obtain ⟨⟨r, w2⟩, h1, h2⟩ := h
    simp only at h2
    subst h2
    exact filter_handler_fixed w w2 a s r h1
  | rm_release => exact rm_release_fixed w w1 a h
  | rm_busy =>
    simp only [apply_op, Option.map_eq_some'] at h
    obtain ⟨⟨r, w2⟩, h1, h2⟩ := h
    simp only at h2
    subst h2
    rw [rm_busy_state w w2 a r h1]
  | rm_set_userdata v => exact rm_set_userdata_fixed w w1 a v h
  | rm_get_userdata =>
    simp only [apply_op, Option.map_eq_some'] at h
    obtain ⟨⟨r, w2⟩, h1, h2⟩ := h
    simp only at h2
    subst h2
    rw [rm_get_userdata_state w w2 a r h1]

/-- No sequence of operations of the module changes the names, the connection
pointer, the two flags or the callback of a monitor. -/
theorem apply_ops_fixed (a : Ptr) (ops : List Op) :
    ∀ (w w1 : World), apply_ops w a ops = some w1 →
      Cell.fixed (w1.heap a) = Cell.fixed (w.heap a) := by
  induction ops with
  | nil =>
    intro w w1 h
    simp only [apply_ops, Option.some.injEq] at h
    rw [h]
  | cons op rest ih =>
    intro w w1 h
    simp only [apply_ops] at h
    cases hop : apply_op w a op with
    | none => simp [hop] at h
    | some w2 =>
      simp only [hop] at h
      rw [ih w2 w1 h, apply_op_fixed w w2 a op hop]

theorem fixed_eq_obj (c : Cell) (m : rm_monitor) (h : Cell.fixed c = Cell.fixed (Cell.live m)) :
    ∃ m1, c.obj = some m1 ∧ m1.device_name = m.device_name ∧
      m1.service_name = m.service_name ∧ m1.connection = m.connection ∧
      m1.filtering = m.filtering ∧ m1.matching = m.matching ∧ m1.change_cb = m.change_cb := by
  cases c with
  | unallocated => simp [Cell.fixed, Cell.obj] at h
  | live m1 =>
    simp only [Cell.fixed, Cell.obj, Option.map_some', Option.some.injEq, Prod.mk.injEq] at h
    exact ⟨m1, rfl, h.1, h.2.1, h.2.2.1, h.2.2.2.1, h.2.2.2.2.1, h.2.2.2.2.2⟩
  | freed m1 =>
    simp only [Cell.fixed, Cell.obj, Option.map_some', Option.some.injEq, Prod.mk.injEq] at h
    exact ⟨m1, rfl, h.1, h.2.1, h.2.2.1, h.2.2.2.1, h.2.2.2.2.1, h.2.2.2.2.2⟩

/-- The state in which the failure exit of `rm_watch` releases the monitor:
the cell is left freed, and in it a set `matching` comes with a set
`filtering`, a set `filtering` with a held connection. -/
theorem rm_watch_fail_state (w : World) (d : String) (cb : Option rm_change_cb_t)
    (error : Bool) (hc : w.env.calloc_ok = true)
    (hfail : (w.env.calloc_ok && w.env.strdup_ok && w.env.malloc_ok && w.env.add_filter_ok &&
      w.env.add_match_ok && w.env.has_owner_ok) = false) :
    ∃ out m,
      rm_watch w true (some ()) (some d) cb error = some out ∧
      out.handle = none ∧
      out.world.heap w.brk = Cell.freed m ∧
      (m.matching = true → m.filtering = true) ∧
      (m.filtering = true → m.connection.isSome = true) := by
  obtain ⟨heap, brk, ⟨rc, fl, mr, st⟩, ⟨c1, c2, c3, c4, c5, c6, own, c7, c8, c9⟩, trace⟩ := w
  simp only at hfail hc
  subst hc
  have step : ∀ (b2 b3 b4 b5 b6 : Bool), (true && b2 && b3 && b4 && b5 && b6) = false →
      b2 = false ∨ (b2 = true ∧ b3 = false) ∨
      (b2 = true ∧ b3 = true ∧ b4 = false) ∨
      (b2 = true ∧ b3 = true ∧ b4 = true ∧ b5 = false) ∨
      (b2 = true ∧ b3 = true ∧ b4 = true ∧ b5 = true ∧ b6 = false) := by
    decide
  rcases step c2 c3 c4 c5 c6 hfail with h | ⟨h2, h⟩ | ⟨h2, h3, h⟩ |
      ⟨h2, h3, h4, h⟩ | ⟨h2, h3, h4, h5, h⟩ <;>
    subst_vars <;> cases c7 <;> cases error <;>
    simp [rm_watch, rm_watch_fail, rm_release, World.store, World.free, World.log,
      dbus_connection_ref, dbus_connection_add_filter, dbus_bus_add_match,
      dbus_bus_name_has_owner, dbus_bus_remove_match, dbus_connection_remove_filter,
      dbus_connection_unref, rm_monitor.zeroed]

/-- C15. The monitor `rm_watch` returns for the device name `d` has
`service_name` equal to `"org.freedesktop.ReserveDevice1."` followed by `d`
(and `device_name` equal to `d`). `rm_busy`, `rm_set_userdata` and
`rm_get_userdata` on it return and leave it live; and after any sequence of
operations (`filter_handler` on any message, `rm_release`, `rm_busy`,
`rm_set_userdata`, `rm_get_userdata`) that leaves the monitor live, both names
are what they were. -/
theorem service_name_fixed (w : World) (d : String) (cb : Option rm_change_cb_t)
    (error : Bool)
    (h1 : w.env.calloc_ok = true) (h2 : w.env.strdup_ok = true) (h3 : w.env.malloc_ok = true)
    (h4 : w.env.add_filter_ok = true) (h5 : w.env.add_match_ok = true)
    (h6 : w.env.has_owner_ok = true) :
    ∃ out a m,
      rm_watch w true (some ()) (some d) cb error = some out ∧
      out.handle = some a ∧ out.world.heap a = Cell.live m ∧
      m.device_name = some d ∧
      m.service_name = some ("org.freedesktop.ReserveDevice1." ++ d) ∧
      (∀ v, ∃ w1 m1,
        apply_ops out.world a [Op.rm_busy, Op.rm_set_userdata v, Op.rm_get_userdata] = some w1 ∧
        w1.heap a = Cell.live m1) ∧
      ∀ ops w1 m1, apply_ops out.world a ops = some w1 → w1.heap a = Cell.live m1 →
        m1.device_name = some d ∧
        m1.service_name = some ("org.freedesktop.ReserveDevice1." ++ d) := by
  have hlive : (watched_world w d cb).heap w.brk = Cell.live (watched_monitor w.env d cb) := by
    simp [watched_world]
  refine ⟨_, w.brk, watched_monitor w.env d cb,
    rm_watch_all_ok w d cb error h1 h2 h3 h4 h5 h6, rfl, hlive, rfl, rfl, ?_, ?_⟩
  · intro v
    refine ⟨(watched_world w d cb).store w.brk
      { watched_monitor w.env d cb with userdata := v }, _, ?_, store_heap_same _ _ _⟩
    simp [apply_ops, apply_op, rm_busy, rm_set_userdata, rm_get_userdata, hlive,
      watched_monitor, World.store]
  · intro ops w1 m1 hops hm1
    have hfix := apply_ops_fixed w.brk ops _ w1 hops
    simp only at hfix
    rw [hlive] at hfix
    obtain ⟨m2, hobj, hdn, hsn, _⟩ := fixed_eq_obj _ _ hfix
    rw [hm1] at hobj
    simp only [Cell.obj, Option.some.injEq] at hobj
    subst hobj
    exact ⟨hdn, hsn⟩

/-- Witness of C15: watching `card1` on the demo connection. -/
theorem service_name_fixed_witness :
    ∃ out a m,
      rm_watch (demo_world 1 none) true (some ()) (some "card1") (some [CbOp.release]) true =
        some out ∧
      out.handle = some a ∧ out.world.heap a = Cell.live m ∧
      m.device_name = some "card1" ∧
      m.service_name = some ("org.freedesktop.ReserveDevice1." ++ "card1") ∧
      (∀ v, ∃ w1 m1,
        apply_ops out.world a [Op.rm_busy, Op.rm_set_userdata v, Op.rm_get_userdata] = some w1 ∧
        w1.heap a = Cell.live m1) ∧
      ∀ ops w1 m1, apply_ops out.world a ops = some w1 → w1.heap a = Cell.live m1 →
        m1.device_name = some "card1" ∧
        m1.service_name = some ("org.freedesktop.ReserveDevice1." ++ "card1") :=
  service_name_fixed (demo_world 1 none) "card1" (some [CbOp.release]) true
    rfl rfl rfl rfl rfl rfl

/-- C17. For the monitor `rm_watch` allocates, whether it is returned fully
constructed or released partially constructed on the failure exit (the cell
is then left freed in the state in which it was released): a set `matching`
comes with a set `filtering`, and a set `filtering` with a held connection.
No sequence of the other operations (`filter_handler`, `rm_release`,
`rm_busy`, `rm_set_userdata`, `rm_get_userdata`) changes `filtering`,
`matching` or the connection pointer, so every state in which the monitor
reaches `rm_release` satisfies the same. -/
theorem flags_invariant (w : World) (d : String) (cb : Option rm_change_cb_t) (error : Bool)
    (hc : w.env.calloc_ok = true) :
    ∃ out m,
      rm_watch w true (some ()) (some d) cb error = some out ∧
      ((out.handle = some w.brk ∧ out.world.heap w.brk = Cell.live m) ∨
       (out.handle = none ∧ out.world.heap w.brk = Cell.freed m)) ∧
      (m.matching = true → m.filtering = true) ∧
      (m.filtering = true → m.connection.isSome = true) ∧
      ∀ ops w1, apply_ops out.world w.brk ops = some w1 →
        ∃ m1, (w1.heap w.brk).obj = some m1 ∧
          m1.filtering = m.filtering ∧ m1.matching = m.matching ∧
          m1.connection = m.connection ∧
          (m1.matching = true → m1.filtering = true) ∧
          (m1.filtering = true → m1.connection.isSome = true) := by
  have key : ∀ (out : WatchOut) (m : rm_monitor),
      (out.world.heap w.brk).obj = some m →
      (m.matching = true → m.filtering = true) →
      (m.filtering = true → m.connection.isSome = true) →
      ∀ ops w1, apply_ops out.world w.brk ops = some w1 →
        ∃ m1, (w1.heap w.brk).obj = some m1 ∧
          m1.filtering = m.filtering ∧ m1.matching = m.matching ∧
          m1.connection = m.connection ∧
          (m1.matching = true → m1.filtering = true) ∧
          (m1.filtering = true → m1.connection.isSome = true) := by
    intro out m hobj hmf hfc ops w1 hops
    have hfix := apply_ops_fixed w.brk ops _ w1 hops
    have hfm : Cell.fixed (out.world.heap w.brk) = Cell.fixed (Cell.live m) := by
      unfold Cell.fixed
      rw [hobj]
      rfl
    rw [hfm] at hfix
    obtain ⟨m1, ho, _, _, hcn, hf, hmt, _⟩ := fixed_eq_obj _ _ hfix
    refine ⟨m1, ho, hf, hmt, hcn, ?_, ?_⟩
    · rw [hf, hmt]; exact hmf
    · rw [hf, hcn]; exact hfc
  cases hall : (w.env.calloc_ok && w.env.strdup_ok && w.env.malloc_ok &&
      w.env.add_filter_ok && w.env.add_match_ok && w.env.has_owner_ok)
  · obtain ⟨out, m, hw, hh, hheap, hmf, hfc⟩ := rm_watch_fail_state w d cb error hc hall
    exact ⟨out, m, hw, Or.inr ⟨hh, hheap⟩, hmf, hfc,
      key out m (by rw [hheap]; rfl) hmf hfc⟩
  · simp only [Bool.and_eq_true] at hall
    obtain ⟨⟨⟨⟨⟨h1, h2⟩, h3⟩, h4⟩, h5⟩, h6⟩ := hall
    have hlive : (watched_world w d cb).heap w.brk = Cell.live (watched_monitor w.env d cb) := by
      simp [watched_world]
    exact ⟨_, watched_monitor w.env d cb, rm_watch_all_ok w d cb error h1 h2 h3 h4 h5 h6,
      Or.inl ⟨rfl, hlive⟩, fun _ => rfl, fun _ => rfl,
      key _ _ (by rw [hlive]; rfl) (fun _ => rfl) (fun _ => rfl)⟩

/-- Witness of C17: on the demo connection the ownership query fails, so the
monitor is released with both flags set and the connection held. -/
theorem flags_invariant_witness :
    ∃ out m,
      rm_watch { demo_world 1 none with env := query_fails_env } true (some ()) (some "card1")
        none true = some out ∧
      (out.world.heap 1).obj = some m ∧
      (m.matching = true → m.filtering = true) ∧
      (m.filtering = true → m.connection.isSome = true) := by
  obtain ⟨out, m, h1, h2, h3, h4, _⟩ :=
    flags_invariant { demo_world 1 none with env := query_fails_env } "card1" none true rfl
  refine ⟨out, m, h1, ?_, h3, h4⟩
  rcases h2 with ⟨_, h⟩ | ⟨_, h⟩
  · exact (congrArg Cell.obj h).trans rfl
  · exact (congrArg Cell.obj h).trans rfl

/-- C16. A matching notification delivered to a live monitor with a registered
callback (which releases no more references than the monitor has; the count is
below `INT_MAX`, so that `m->ref++` does not overflow the C `int`): `busy` is
stored before the callback runs. At the entry of the callback `rm_busy`
returns the value given by the notification's new owner, and every `rm_busy`
call the callback makes returns that value, whatever `busy` was before: the
log between the invocation and the return holds one such reading per call and
no reading of another value. -/
theorem filter_handler_busy_before_callback (w : World) (a : Ptr) (m : rm_monitor)
    (s : DBusMessage) (name old new : String) (cb : rm_change_cb_t)
    (hm : w.heap a = Cell.live m) (href : m.ref ≥ 1) (hmax : m.ref < INT_MAX)
    (hsig : dbus_message_is_signal s "org.freedesktop.DBus" "NameOwnerChanged" = true)
    (hargs : dbus_message_get_args s = some (name, old, new))
    (hname : m.service_name = some name)
    (hcb : m.change_cb = some cb) (hk : (releases cb : Int) ≤ m.ref) :
    rm_busy (cb_entry w a m new) (some a) =
      some (if new ≠ "" then 1 else 0, cb_entry w a m new) ∧
    ∃ w1 evs tail,
      filter_handler w s a = some (DBusHandlerResult.NOT_YET_HANDLED, w1) ∧
      w1.trace = w.trace ++ Event.cb_enter a :: evs ++ Event.cb_return a :: tail ∧
      (∀ r, Event.cb_busy r ∈ evs → r = (if new ≠ "" then 1 else 0)) ∧
      evs.count (Event.cb_busy (if new ≠ "" then 1 else 0)) = cb.count CbOp.busy ∧
      (∀ r, Event.cb_busy r ∉ tail) := by
  have hval : (if cstr_nonempty (some new) = true then (1 : Int) else 0) =
      (if new ≠ "" then 1 else 0) := by
    by_cases h : new = "" <;> simp [cstr_nonempty, h]
  constructor
  · have hpos : m.ref + 1 > 0 := by omega
    rw [cb_entry_eq w a m new href hmax]
    simp only [rm_busy, World.log, World.store, if_true, hpos]
    rw [hval]
  · obtain ⟨w1, u, evs, h1, _, h3, h4, h5, _⟩ :=
      filter_handler_dispatch w a m s name old new cb hm href hmax hsig hargs hname hcb hk
    rw [hval] at h4 h5
    refine ⟨w1, evs, _, h1, h3, ?_, h5, ?_⟩
    · intro r hr
      rcases h4 _ hr with h | ⟨v, h⟩
      · exact Event.cb_busy.inj h
      · cases h
    · intro r hr
      split_ifs at hr
      · unfold teardown_events at hr
        split_ifs at hr <;> simp at hr
      · cases hr

/-- Witness of C16: the demo monitor, not busy, learns that `:1.42` owns its
name; the callback reads `busy`. -/
theorem filter_handler_busy_before_callback_witness :
    rm_busy (cb_entry (demo_world 1 (some [CbOp.busy])) 0 (demo_monitor 1 (some [CbOp.busy]))
        ":1.42") (some 0) =
      some (if (":1.42" : String) ≠ "" then 1 else 0,
        cb_entry (demo_world 1 (some [CbOp.busy])) 0 (demo_monitor 1 (some [CbOp.busy]))
          ":1.42") ∧
    ∃ w1 evs tail,
      filter_handler (demo_world 1 (some [CbOp.busy]))
          (name_owner_changed "org.freedesktop.ReserveDevice1.card0" "" ":1.42") 0 =
        some (DBusHandlerResult.NOT_YET_HANDLED, w1) ∧
      w1.trace = (demo_world 1 (some [CbOp.busy])).trace ++
        Event.cb_enter 0 :: evs ++ Event.cb_return 0 :: tail ∧
      (∀ r, Event.cb_busy r ∈ evs → r = (if (":1.42" : String) ≠ "" then 1 else 0)) ∧
      evs.count (Event.cb_busy (if (":1.42" : String) ≠ "" then 1 else 0)) =
        [CbOp.busy].count CbOp.busy ∧
      (∀ r, Event.cb_busy r ∉ tail) :=
  filter_handler_busy_before_callback (demo_world 1 (some [CbOp.busy])) 0
    (demo_monitor 1 (some [CbOp.busy]))
    (name_owner_changed "org.freedesktop.ReserveDevice1.card0" "" ":1.42")
    "org.freedesktop.ReserveDevice1.card0" "" ":1.42" [CbOp.busy]
    rfl (by decide) (by decide) (by decide) rfl rfl rfl (by decide)

/-! ## Size of the service-name buffer -/

theorem strlen_append (s t : String) : strlen (s ++ t) = strlen s + strlen t := by
  obtain ⟨cs⟩ := s
  obtain ⟨ct⟩ := t
  show String.utf8ByteSize (String.append ⟨cs⟩ ⟨ct⟩) =
    String.utf8ByteSize ⟨cs⟩ + String.utf8ByteSize ⟨ct⟩
  simp only [String.append, String.utf8ByteSize_mk, String.utf8Len_append]

/-- C18. For every device name `d` the size passed to `malloc`,
`sizeof(SERVICE_PREFIX) + strlen(d)`, is exactly the number of bytes `sprintf`
writes: the bytes of the prefix, the bytes of `d`, and one terminating NUL. So
the write does not exceed the allocation, and the buffer holds the
`service_name` that `rm_watch` stores. -/
theorem service_name_buffer_exact (d : String) :
    sizeof_SERVICE_PREFIX = 32 ∧
    service_name_buffer_size d = sprintf_bytes_written d ∧
    sprintf_bytes_written d = strlen SERVICE_PREFIX + strlen d + 1 ∧
    sprintf_bytes_written d ≤ service_name_buffer_size d ∧
    ∀ (env : Env) (cb : Option rm_change_cb_t),
      (watched_monitor env d cb).service_name = some (sprintf_service_name d) := by
  have h32 : sizeof_SERVICE_PREFIX = 32 := by decide
  have hw : sprintf_bytes_written d = strlen SERVICE_PREFIX + strlen d + 1 := by
    simp [sprintf_bytes_written, sprintf_service_name, strlen_append]
  have hb : service_name_buffer_size d = sprintf_bytes_written d := by
    rw [hw]
    simp only [service_name_buffer_size, sizeof_SERVICE_PREFIX]
    omega
  exact ⟨h32, hb, hw, le_of_eq hb.symm, fun _ _ => rfl⟩

/-! ## The reference count as a C `int` -/

/-- A callback started on a monitor whose count is not positive makes no call
that returns: every call of the API asserts `ref > 0`. -/
theorem run_cb_nonpositive (w w1 : World) (a : Ptr) (m : rm_monitor) (cb : rm_change_cb_t)
    (hm : w.heap a = Cell.live m) (href : m.ref ≤ 0) (h : run_cb w a cb = some w1) :
    w1 = w := by
  have hn : ¬ m.ref > 0 := by omega
  cases cb with
  | nil =>
    simp only [run_cb, Option.some.injEq] at h
    exact h.symm
  | cons op rest =>
    cases op <;>
      simp [run_cb, run_op, rm_release, rm_busy, rm_set_userdata, rm_get_userdata, hm, hn] at h

/-- At `ref = INT_MAX` the temporary reference overflows: `m->ref++` leaves a
negative count and the handler does not return, the callback or the handler's
own `rm_release` stopping on `assert(m->ref > 0)`. -/
theorem filter_handler_ref_overflow (w : World) (a : Ptr) (m : rm_monitor) (s : DBusMessage)
    (name old new : String) (cb : rm_change_cb_t)
    (hm : w.heap a = Cell.live m) (href : m.ref = INT_MAX)
    (hsig : dbus_message_is_signal s "org.freedesktop.DBus" "NameOwnerChanged" = true)
    (hargs : dbus_message_get_args s = some (name, old, new))
    (hname : m.service_name = some name)
    (hcb : m.change_cb = some cb) :
    filter_handler w s a = none := by
  have h1 : m.ref ≥ 1 := by rw [href]; decide
  have hw : int_wrap (m.ref + 1) = -2147483648 := by rw [href]; decide
  have hentry : (cb_entry w a m new).heap a =
      Cell.live { m with busy := cstr_nonempty (some new), ref := -2147483648 } := by
    simp [cb_entry, World.store, World.log, hw]
  cases hrun : run_cb (cb_entry w a m new) a cb with
  | none => simp [filter_handler, hm, h1, hsig, hargs, hname, hcb, hrun]
  | some w1 =>
    have heq := run_cb_nonpositive _ w1 a _ cb hentry (by show (-2147483648 : Int) ≤ 0; decide)
      hrun
    have hrel : rm_release (w1.log (Event.cb_return a)) (some a) = none := by
      rw [heq]
      simp [rm_release, World.log, hentry]
    simp [filter_handler, hm, h1, hsig, hargs, hname, hcb, hrun, hrel]

theorem rm_release_ref (w w1 : World) (a : Ptr) (m1 : rm_monitor)
    (h : rm_release w (some a) = some w1) (h1 : w1.heap a = Cell.live m1) :
    ∃ m, w.heap a = Cell.live m ∧ m1.ref = m.ref - 1 := by
  cases hc : w.heap a with
  | unallocated => simp [rm_release, hc] at h
  | freed m => simp [rm_release, hc] at h
  | live m =>
    refine ⟨m, rfl, ?_⟩
    by_cases hr : m.ref > 1
    · rw [rm_release_not_last w a m hc hr] at h
      cases h
      simp only [World.store, if_true, Cell.live.injEq] at h1
      rw [← h1]
    · by_cases h2 : m.ref = 1
      · rw [rm_release_last w a m hc h2] at h
        cases h
        simp [teardown_world] at h1
      · have h3 : ¬ m.ref > 0 := by omega
        simp [rm_release, hc, h3] at h

theorem rm_set_userdata_ref (w w1 : World) (a : Ptr) (v : Nat) (m1 : rm_monitor)
    (h : rm_set_userdata w (some a) v = some w1) (h1 : w1.heap a = Cell.live m1) :
    ∃ m, w.heap a = Cell.live m ∧ m1.ref = m.ref := by
  cases hc : w.heap a with
  | unallocated => simp [rm_set_userdata, hc] at h
  | freed m => simp [rm_set_userdata, hc] at h
  | live m =>
    refine ⟨m, rfl, ?_⟩
    simp only [rm_set_userdata, hc] at h
    split_ifs at h
    cases h
    simp only [World.store, if_true, Cell.live.injEq] at h1
    rw [← h1]

theorem run_op_ref_le (w w1 : World) (a : Ptr) (op : CbOp) (m1 : rm_monitor)
    (h : run_op w a op = some w1) (h1 : w1.heap a = Cell.live m1) :
    ∃ m, w.heap a = Cell.live m ∧ m1.ref ≤ m.ref := by
  cases op with
  | release =>
    obtain ⟨m, hm, hr⟩ := rm_release_ref w w1 a m1 h h1
    exact ⟨m, hm, by omega⟩
  | busy =>
    simp only [run_op] at h
    cases hb : rm_busy w (some a) with
    | none => simp [hb] at h
    | some p =>
      obtain ⟨r, w2⟩ := p
      simp only [hb, Option.some.injEq] at h
      rw [← h, rm_busy_state w w2 a r hb] at h1
      exact ⟨m1, h1, le_refl _⟩
  | set_userdata v =>
    obtain ⟨m, hm, hr⟩ := rm_set_userdata_ref w w1 a v m1 h h1
    exact ⟨m, hm, by omega⟩
  | get_userdata =>
    simp only [run_op] at h
    cases hb : rm_get_userdata w (some a) with
    | none => simp [hb] at h
    | some p =>
      obtain ⟨r, w2⟩ := p
      simp only [hb, Option.some.injEq] at h
      rw [← h, rm_get_userdata_state w w2 a r hb] at h1
      exact ⟨m1, h1, le_refl _⟩

theorem run_cb_ref_le (a : Ptr) (cb : rm_change_cb_t) :
    ∀ (w w1 : World) (m1 : rm_monitor), run_cb w a cb = some w1 → w1.heap a = Cell.live m1 →
      ∃ m, w.heap a = Cell.live m ∧ m1.ref ≤ m.ref := by
  induction cb with
  | nil =>
    intro w w1 m1 h h1
    simp only [run_cb, Option.some.injEq] at h
    rw [← h] at h1
    exact ⟨m1, h1, le_refl _⟩
  | cons op rest ih =>
    intro w w1 m1 h h1
    simp only [run_cb] at h
    cases hop : run_op w a op with
    | none => simp [hop] at h
    | some w2 =>
      simp only [hop] at h
      obtain ⟨m2, hm2, hle2⟩ := ih w2 w1 m1 h h1
      obtain ⟨m, hm, hle⟩ := run_op_ref_le w w2 a op m2 hop hm2
      exact ⟨m, hm, le_trans hle2 hle⟩

theorem int_wrap_le (x : Int) (h : -2147483648 ≤ x) : int_wrap x ≤ x := by
  unfold int_wrap
  omega

/-- The handler never leaves a live monitor with a larger count than it found:
the temporary reference is dropped before it returns. -/
theorem filter_handler_ref_le (w w1 : World) (a : Ptr) (s : DBusMessage)
    (r : DBusHandlerResult) (m1 : rm_monitor)
    (h : filter_handler w s a = some (r, w1)) (h1 : w1.heap a = Cell.live m1) :
    ∃ m, w.heap a = Cell.live m ∧ m1.ref ≤ m.ref := by
  cases hc : w.heap a with
  | unallocated => simp [filter_handler, hc] at h
  | freed m => simp [filter_handler, hc] at h
  | live m =>
    refine ⟨m, rfl, ?_⟩
    simp only [filter_handler, hc] at h
    split_ifs at h with h2 h3
    · cases hargs : dbus_message_get_args s with
      | none =>
        simp only [hargs, Option.some.injEq] at h
        have hw : (filter_handler_invalid w s).2.heap = w.heap := by
          simp only [filter_handler_invalid, dbus_connection_send]
          split_ifs <;> rfl
        rw [h] at hw
        simp only at hw
        rw [hw, hc] at h1
        cases h1
        exact le_refl _
      | some t =>
        obtain ⟨name, old, new⟩ := t
        simp only [hargs] at h
        cases hsn : m.service_name with
        | none => simp [hsn] at h
        | some sn =>
          simp only [hsn] at h
          split_ifs at h with h4
          · cases hcb : m.change_cb with
            | none =>
              simp only [hcb, Option.some.injEq, Prod.mk.injEq] at h
              rw [← h.2] at h1
              simp only [World.store, if_true, Cell.live.injEq] at h1
              rw [← h1]
            | some cb =>
              simp only [hcb] at h
              cases hrun : run_cb (cb_entry w a m new) a cb with
              | none => simp [hrun] at h
              | some w2 =>
                simp only [hrun] at h
                cases hrel : rm_release (w2.log (Event.cb_return a)) (some a) with
                | none => simp [hrel] at h
                | some w3 =>
                  simp only [hrel, Option.some.injEq, Prod.mk.injEq] at h
                  rw [← h.2] at h1
                  obtain ⟨m2, hm2, hr2⟩ := rm_release_ref _ w3 a m1 hrel h1
                  have hm2' : w2.heap a = Cell.live m2 := hm2
                  obtain ⟨m0, hm0, hr0⟩ := run_cb_ref_le a cb _ w2 m2 hrun hm2'
                  simp only [cb_entry, World.store, World.log, if_true, Cell.live.injEq] at hm0
                  have hwrap := int_wrap_le (m.ref + 1) (by omega)
                  rw [← hm0] at hr0
                  simp only at hr0
                  omega
          · simp only [Option.some.injEq, Prod.mk.injEq] at h
            rw [← h.2, hc] at h1
            cases h1
            exact le_refl _
    · simp only [Option.some.injEq, Prod.mk.injEq] at h
      rw [← h.2, hc] at h1
      cases h1
      exact le_refl _

theorem apply_op_ref_le (w w1 : World) (a : Ptr) (op : Op) (m1 : rm_monitor)
    (h : apply_op w a op = some w1) (h1 : w1.heap a = Cell.live m1) :
    ∃ m, w.heap a = Cell.live m ∧ m1.ref ≤ m.ref := by
  cases op with
  | filter_handler s =>
    simp only [apply_op, Option.map_eq_some'] at h
    obtain ⟨⟨r, w2⟩, h2, h3⟩ := h
    simp only at h3
    subst h3
    exact filter_handler_ref_le w w2 a s r m1 h2 h1
  | rm_release =>
    obtain ⟨m, hm, hr⟩ := rm_release_ref w w1 a m1 h h1
    exact ⟨m, hm, by omega⟩
  | rm_busy =>
    simp only [apply_op, Option.map_eq_some'] at h
    obtain ⟨⟨r, w2⟩, h2, h3⟩ := h
    simp only at h3
    subst h3
    rw [rm_busy_state w w2 a r h2] at h1
    exact ⟨m1, h1, le_refl _⟩
  | rm_set_userdata v =>
    obtain ⟨m, hm, hr⟩ := rm_set_userdata_ref w w1 a v m1 h h1
    exact ⟨m, hm, by omega⟩
  | rm_get_userdata =>
    simp only [apply_op, Option.map_eq_some'] at h
    obtain ⟨⟨r, w2⟩, h2, h3⟩ := h
    simp only at h3
    subst h3
    rw [rm_get_userdata_state w w2 a r h2] at h1
    exact ⟨m1, h1, le_refl _⟩

/-- No sequence of operations of the module leaves a live monitor with a
larger reference count than it had: the module has no operation that takes a
lasting reference. -/
theorem apply_ops_ref_le (a : Ptr) (ops : List Op) :
    ∀ (w w1 : World) (m1 : rm_monitor), apply_ops w a ops = some w1 →
      w1.heap a = Cell.live m1 → ∃ m, w.heap a = Cell.live m ∧ m1.ref ≤ m.ref := by
  induction ops with
  | nil =>
    intro w w1 m1 h h1
    simp only [apply_ops, Option.some.injEq] at h
    rw [← h] at h1
    exact ⟨m1, h1, le_refl _⟩
  | cons op rest ih =>
    intro w w1 m1 h h1
    simp only [apply_ops] at h
    cases hop : apply_op w a op with
    | none => simp [hop] at h
    | some w2 =>
      simp only [hop] at h
      obtain ⟨m2, hm2, hle2⟩ := ih w2 w1 m1 h h1
      obtain ⟨m, hm, hle⟩ := apply_op_ref_le w w2 a op m2 hop hm2
      exact ⟨m, hm, le_trans hle2 hle⟩

/-- Every live state a monitor returned by `rm_watch` can be brought to by the
operations of the module has a reference count of at most one, far below
`INT_MAX`: the bound under which the interceptor is specified holds of every
monitor the module itself produces. -/
theorem reachable_ref_bounded (w : World) (d : String) (cb : Option rm_change_cb_t)
    (error : Bool) (out : WatchOut) (a : Ptr)
    (hw : rm_watch w true (some ()) (some d) cb error = some out)
    (hh : out.handle = some a) :
    ∀ ops w1 m1, apply_ops out.world a ops = some w1 → w1.heap a = Cell.live m1 →
      m1.ref ≤ 1 ∧ m1.ref < INT_MAX := by
  intro ops w1 m1 hops h1
  cases hall : (w.env.calloc_ok && w.env.strdup_ok && w.env.malloc_ok &&
      w.env.add_filter_ok && w.env.add_match_ok && w.env.has_owner_ok)
  · obtain ⟨out2, h2, _, h3⟩ := rm_watch_fail_code w d cb error hall
    rw [hw] at h2
    cases h2
    rw [h3] at hh
    cases hh
  · simp only [Bool.and_eq_true] at hall
    obtain ⟨⟨⟨⟨⟨c1, c2⟩, c3⟩, c4⟩, c5⟩, c6⟩ := hall
    rw [rm_watch_all_ok w d cb error c1 c2 c3 c4 c5 c6] at hw
    cases hw
    simp only [Option.some.injEq] at hh
    subst hh
    obtain ⟨m, hm, hle⟩ := apply_ops_ref_le w.brk ops _ w1 m1 hops h1
    simp only [watched_world, if_true, Cell.live.injEq] at hm
    rw [← hm] at hle
    have h1 : m1.ref ≤ 1 := hle
    refine ⟨h1, ?_⟩
    unfold INT_MAX
    omega

end ReserveMonitor
